import Mathlib

/-!
# Resource adapters of the AWS provider: ECR pull-through cache rule,
# Route 53 Resolver rules data source, EKS cluster

A shallow embedding of the handler functions of

* `internal/service/ecr/pull_through_cache_rule.go`
* `internal/service/route53resolver/rules_data_source.go`
* `internal/service/eks/cluster.go`

The remote service is an explicit world `W` with one transition function per
API operation; every handler returns the new local state, the diagnostics, the
new world and the list of API calls it made, in order.
-/

namespace TerraformAWS

/-! ## Go errors and SDK diagnostics -/

/-- A Go `error` value, reduced to the three observations the adapters make of
it: `text` is `err.Error()`, `code` is the AWS error code when the error is an
`awserr.Error`, and `notFound` is the answer of `tfresource.NotFound(err)`. -/
structure GoError where
  text : String
  code : Option String
  notFound : Bool
deriving DecidableEq, Repr

/-- The package function `tfresource.NotFound`, on a possibly nil error: nil
is never not-found. -/
def tfresource.NotFound (err : Option GoError) : Bool :=
  match err with
  | none => false
  | some e => e.notFound

/-- The library function `tfawserr.ErrCodeEquals`: false on nil and on errors
that carry no AWS code. -/
def tfawserr.ErrCodeEquals (err : Option GoError) (code : String) : Bool :=
  match err with
  | none => false
  | some e => e.code == some code

/-- The library function `aws.StringValue`: a nil pointer reads as the empty string. -/
def aws.StringValue (p : Option String) : String :=
  p.getD ""

/-- The library function `aws.String`: a pointer to the given string, never nil. -/
def aws.String (s : String) : Option String :=
  some s

/-- Severity of a diagnostic (`diag.Error`, `diag.Warning`). -/
inductive Severity where
  | Error
  | Warning
deriving DecidableEq, Repr

/-- One diagnostic: `diag.Diagnostic` of the plugin SDK, and the
(severity, summary, detail) triple of the plugin framework. -/
structure Diagnostic where
  severity : Severity
  summary : String
  detail : String
deriving DecidableEq, Repr

/-- The type `diag.Diagnostics`: a slice of diagnostics; the nil slice is `[]`. -/
abbrev Diagnostics := List Diagnostic

/-- The method `Diagnostics.HasError`. -/
def Diagnostics.HasError (diags : Diagnostics) : Bool :=
  diags.any (fun x => x.severity == Severity.Error)

/-- The library function `diag.Errorf`, applied to the already formatted message. -/
def diag.Errorf (msg : String) : Diagnostics :=
  [{ severity := Severity.Error, summary := msg, detail := "" }]

/-- Modelled from the spec: `sdkdiag.AppendErrorf` of `internal/errs/sdkdiag`
is not among the sources; provider API errors are "surfaced to the caller as
diagnostics with minimal context", so it appends one error diagnostic whose
summary is the formatted message. -/
def sdkdiag.AppendErrorf (diags : Diagnostics) (msg : String) : Diagnostics :=
  diags ++ diag.Errorf msg

/-! ## ECR pull-through cache rule -/

namespace ecr

/-- The SDK constant `ecr.ErrCodePullThroughCacheRuleNotFoundException`. -/
def ErrCodePullThroughCacheRuleNotFoundException : String :=
  "PullThroughCacheRuleNotFoundException"

/-- The SDK type `ecr.PullThroughCacheRule`, at the fields the adapter reads;
each is a `*string`. -/
structure PullThroughCacheRule where
  EcrRepositoryPrefix : Option String
  RegistryId : Option String
  UpstreamRegistryUrl : Option String
  CredentialArn : Option String
deriving DecidableEq, Repr

/-- The SDK type `ecr.CreatePullThroughCacheRuleInput`. -/
structure CreatePullThroughCacheRuleInput where
  EcrRepositoryPrefix : Option String
  UpstreamRegistryUrl : Option String
  CredentialArn : Option String
deriving DecidableEq, Repr

/-- The SDK type `ecr.UpdatePullThroughCacheRuleInput`. -/
structure UpdatePullThroughCacheRuleInput where
  EcrRepositoryPrefix : Option String
  CredentialArn : Option String
deriving DecidableEq, Repr

/-- The SDK type `ecr.DeletePullThroughCacheRuleInput`. -/
structure DeletePullThroughCacheRuleInput where
  EcrRepositoryPrefix : Option String
  RegistryId : Option String
deriving DecidableEq, Repr

/-- One call made on the ECR connection. -/
inductive Call where
  | CreatePullThroughCacheRule (input : CreatePullThroughCacheRuleInput)
  | UpdatePullThroughCacheRule (input : UpdatePullThroughCacheRuleInput)
  | DeletePullThroughCacheRule (input : DeletePullThroughCacheRuleInput)
  | FindPullThroughCacheRuleByRepositoryPrefix (repositoryPrefix : String)
deriving DecidableEq, Repr

/-- The ECR connection over a remote world `W`. The three mutating operations
return the error (nil on success) and the next world; the finder
`FindPullThroughCacheRuleByRepositoryPrefix`, which is not among the sources,
is taken as it is used: it answers with a rule or with an error. -/
structure Conn (W : Type) where
  CreatePullThroughCacheRuleWithContext :
    W → CreatePullThroughCacheRuleInput → Option GoError × W
  UpdatePullThroughCacheRuleWithContext :
    W → UpdatePullThroughCacheRuleInput → Option GoError × W
  DeletePullThroughCacheRuleWithContext :
    W → DeletePullThroughCacheRuleInput → Option GoError × W
  FindPullThroughCacheRuleByRepositoryPrefix :
    W → String → Except GoError PullThroughCacheRule

/-- The `schema.ResourceData` of the resource: the identifier, the
new-resource mark and the four string attributes of the schema; an attribute
that was never set, or was set from a nil pointer, is `none`. -/
structure ResourceData where
  id : String
  isNew : Bool
  EcrRepositoryPrefix : Option String
  RegistryId : Option String
  UpstreamRegistryUrl : Option String
  CredentialArn : Option String
deriving DecidableEq, Repr

/-- The method `d.Id()`. -/
def ResourceData.Id (d : ResourceData) : String :=
  d.id

/-- The method `d.IsNewResource()`. -/
def ResourceData.IsNewResource (d : ResourceData) : Bool :=
  d.isNew

/-- The method `d.SetId(v)`. -/
def ResourceData.SetId (d : ResourceData) (v : String) : ResourceData :=
  { d with id := v }

/-- The method `d.Get(key).(string)`: the zero value for an unset attribute. -/
def ResourceData.Get (d : ResourceData) (key : String) : String :=
  if key = "ecr_repository_prefix" then aws.StringValue d.EcrRepositoryPrefix
  else if key = "registry_id" then aws.StringValue d.RegistryId
  else if key = "upstream_registry_url" then aws.StringValue d.UpstreamRegistryUrl
  else if key = "credential_arn" then aws.StringValue d.CredentialArn
  else ""

/-- The method `d.Set(key, value)` for a `*string` value; the handlers drop
its error, so a key outside the schema changes nothing. -/
def ResourceData.Set (d : ResourceData) (key : String) (value : Option String) : ResourceData :=
  if key = "ecr_repository_prefix" then { d with EcrRepositoryPrefix := value }
  else if key = "registry_id" then { d with RegistryId := value }
  else if key = "upstream_registry_url" then { d with UpstreamRegistryUrl := value }
  else if key = "credential_arn" then { d with CredentialArn := value }
  else d

/-- What a handler leaves behind: the resource data, the returned
diagnostics, the remote world and the API calls made, oldest first. -/
structure Outcome (W : Type) where
  d : ResourceData
  diags : Diagnostics
  world : W
  calls : List Call

/-- The error half of a `(rule, err)` result. -/
def errOf {α : Type} (r : Except GoError α) : Option GoError :=
  match r with
  | Except.error e => some e
  | Except.ok _ => none

/-- The handler `resourcePullThroughCacheRuleRead`. -/
def resourcePullThroughCacheRuleRead {W : Type} (conn : Conn W) (d : ResourceData) (w : W) :
    Outcome W :=
  let diags : Diagnostics := []
  let found := conn.FindPullThroughCacheRuleByRepositoryPrefix w d.Id
  let calls := [Call.FindPullThroughCacheRuleByRepositoryPrefix d.Id]
  if !d.IsNewResource && tfresource.NotFound (errOf found) then
    { d := d.SetId "", diags := diags, world := w, calls := calls }
  else
    match found with
    | Except.error err =>
      { d := d
        diags := sdkdiag.AppendErrorf diags
          ("reading ECR Pull Through Cache Rule (" ++ d.Id ++ "): " ++ err.text)
        world := w
        calls := calls }
    | Except.ok rule =>
      let d1 := d.Set "ecr_repository_prefix" rule.EcrRepositoryPrefix
      let d2 := d1.Set "registry_id" rule.RegistryId
      let d3 := d2.Set "upstream_registry_url" rule.UpstreamRegistryUrl
      let d4 := d3.Set "credential_arn" rule.CredentialArn
      { d := d4, diags := diags, world := w, calls := calls }

/-- The request built by `resourcePullThroughCacheRuleCreate`. -/
def createInput (d : ResourceData) : CreatePullThroughCacheRuleInput :=
  { EcrRepositoryPrefix := aws.String (d.Get "ecr_repository_prefix")
    UpstreamRegistryUrl := aws.String (d.Get "upstream_registry_url")
    CredentialArn := aws.String (d.Get "credential_arn") }

/-- The handler `resourcePullThroughCacheRuleCreate`. -/
def resourcePullThroughCacheRuleCreate {W : Type} (conn : Conn W) (d : ResourceData) (w : W) :
    Outcome W :=
  let diags : Diagnostics := []
  let repositoryPrefix := d.Get "ecr_repository_prefix"
  let input := createInput d
  let res := conn.CreatePullThroughCacheRuleWithContext w input
  match res.1 with
  | some err =>
    { d := d
      diags := sdkdiag.AppendErrorf diags
        ("creating ECR Pull Through Cache Rule (" ++ repositoryPrefix ++ "): " ++ err.text)
      world := res.2
      calls := [Call.CreatePullThroughCacheRule input] }
  | none =>
    let d1 := d.SetId repositoryPrefix
    let r := resourcePullThroughCacheRuleRead conn d1 res.2
    { d := r.d
      diags := diags ++ r.diags
      world := r.world
      calls := Call.CreatePullThroughCacheRule input :: r.calls }

/-- The request built by `resourcePullThroughCacheRuleUpdate`. -/
def updateInput (d : ResourceData) : UpdatePullThroughCacheRuleInput :=
  { EcrRepositoryPrefix := aws.String (d.Get "ecr_repository_prefix")
    CredentialArn := aws.String (d.Get "credential_arn") }

/-- The handler `resourcePullThroughCacheRuleUpdate`. -/
def resourcePullThroughCacheRuleUpdate {W : Type} (conn : Conn W) (d : ResourceData) (w : W) :
    Outcome W :=
  let repositoryPrefix := d.Get "ecr_repository_prefix"
  let input := updateInput d
  let res := conn.UpdatePullThroughCacheRuleWithContext w input
  match res.1 with
  | some err =>
    { d := d
      diags := diag.Errorf
        ("updating ECR Pull Through Cache Rule (" ++ repositoryPrefix ++ "): " ++ err.text)
      world := res.2
      calls := [Call.UpdatePullThroughCacheRule input] }
  | none =>
    let d1 := d.SetId repositoryPrefix
    let r := resourcePullThroughCacheRuleRead conn d1 res.2
    { d := r.d
      diags := r.diags
      world := r.world
      calls := Call.UpdatePullThroughCacheRule input :: r.calls }

/-- The request built by `resourcePullThroughCacheRuleDelete`. -/
def deleteInput (d : ResourceData) : DeletePullThroughCacheRuleInput :=
  { EcrRepositoryPrefix := aws.String d.Id
    RegistryId := aws.String (d.Get "registry_id") }

/-- The handler `resourcePullThroughCacheRuleDelete`. -/
def resourcePullThroughCacheRuleDelete {W : Type} (conn : Conn W) (d : ResourceData) (w : W) :
    Outcome W :=
  let diags : Diagnostics := []
  let input := deleteInput d
  let res := conn.DeletePullThroughCacheRuleWithContext w input
  let calls := [Call.DeletePullThroughCacheRule input]
  if tfawserr.ErrCodeEquals res.1 ErrCodePullThroughCacheRuleNotFoundException then
    { d := d, diags := diags, world := res.2, calls := calls }
  else
    match res.1 with
    | some err =>
      { d := d
        diags := sdkdiag.AppendErrorf diags
          ("deleting ECR Pull Through Cache Rule (" ++ d.Id ++ "): " ++ err.text)
        world := res.2
        calls := calls }
    | none => { d := d, diags := diags, world := res.2, calls := calls }

end ecr

/-! ## Go regular expressions and the SDK string validators -/

/-- The characters of the class range `lo-hi`, ends included. -/
def charRange (lo hi : Char) : List Char :=
  (List.range (hi.toNat + 1 - lo.toNat)).map (fun i => Char.ofNat (lo.toNat + i))

/-- A character class `[...]`: the alternation of its members. -/
def charClass (cs : List Char) : RegularExpression Char :=
  cs.foldr (fun c r => RegularExpression.plus (RegularExpression.char c) r) RegularExpression.zero

/-- The repetition `r+`, one or more times. -/
def oneOrMore (r : RegularExpression Char) : RegularExpression Char :=
  RegularExpression.comp r (RegularExpression.star r)

/-- A compiled Go `regexp.Regexp` of the shape the adapters use: a body,
optionally anchored by a leading `^` and a trailing `$`. -/
structure Regexp where
  anchoredStart : Bool
  anchoredEnd : Bool
  body : RegularExpression Char

/-- The method `(*Regexp).MatchString`: whether the text contains a match,
that is whether some substring (from the start of the text under `^`, up to
its end under `$`) matches the body. -/
def Regexp.MatchString (re : Regexp) (s : String) : Bool :=
  let cs := s.data
  (List.range (cs.length + 1)).any fun i =>
    (List.range (cs.length + 1 - i)).any fun n =>
      (!re.anchoredStart || i == 0) && (!re.anchoredEnd || i + n == cs.length) &&
        re.body.rmatch ((cs.drop i).take n)

/-- The Go builtin `len` on a string: its length in bytes. -/
def len (s : String) : Nat :=
  s.utf8ByteSize

/-- The SDK validator `validation.StringLenBetween(min, max)`: true when it
reports no error. -/
def validation.StringLenBetween (min max : Nat) (v : String) : Bool :=
  !(len v < min || len v > max)

/-- The SDK validator `validation.StringMatch(r, message)`: true when it
reports no error. -/
def validation.StringMatch (r : Regexp) (v : String) : Bool :=
  r.MatchString v

/-- The SDK validator `validation.All`: every validator accepts. -/
def validation.All (validators : List (String → Bool)) (v : String) : Bool :=
  validators.all (fun f => f v)

namespace ecr

/-- The class `[a-z0-9]`. -/
def lowerAlnum : RegularExpression Char :=
  charClass (charRange 'a' 'z' ++ charRange '0' '9')

/-- The group `[a-z0-9]+(?:[._-][a-z0-9]+)*`, which the pattern uses twice. -/
def pathComponent : RegularExpression Char :=
  RegularExpression.comp (oneOrMore lowerAlnum)
    (RegularExpression.star
      (RegularExpression.comp (charClass ['.', '_', '-']) (oneOrMore lowerAlnum)))

/-- The pattern of the `ecr_repository_prefix` validator,
`(?:[a-z0-9]+(?:[._-][a-z0-9]+)*/)*[a-z0-9]+(?:[._-][a-z0-9]+)*`: no anchor. -/
def repositoryPrefixRegexp : Regexp :=
  { anchoredStart := false
    anchoredEnd := false
    body := RegularExpression.comp
      (RegularExpression.star (RegularExpression.comp pathComponent (RegularExpression.char '/')))
      pathComponent }

/-- The message the `ecr_repository_prefix` validator reports on a mismatch. -/
def repositoryPrefixMessage : String :=
  "must only include alphanumeric, underscore, period, hyphen, or slash characters"

/-- The `ValidateFunc` of `ecr_repository_prefix`: true when the value is accepted. -/
def validateRepositoryPrefix (v : String) : Bool :=
  validation.All
    [validation.StringLenBetween 2 30, validation.StringMatch repositoryPrefixRegexp] v

/-- The characters the validator message allows: alphanumeric, underscore,
period, hyphen or slash. -/
def allowedPrefixChar (c : Char) : Bool :=
  c.isAlphanum || c == '_' || c == '.' || c == '-' || c == '/'

/-- One entry of the resource schema, at the flags the claims are about. -/
structure SchemaField where
  name : String
  Required : Bool
  Optional : Bool
  Computed : Bool
  ForceNew : Bool
deriving DecidableEq, Repr

/-- The `Schema` map of `ResourcePullThroughCacheRule`. -/
def ResourcePullThroughCacheRuleSchema : List SchemaField :=
  [ { name := "ecr_repository_prefix", Required := true, Optional := false, Computed := false,
      ForceNew := true },
    { name := "registry_id", Required := false, Optional := false, Computed := true,
      ForceNew := false },
    { name := "upstream_registry_url", Required := true, Optional := false, Computed := false,
      ForceNew := true },
    { name := "credential_arn", Required := false, Optional := true, Computed := false,
      ForceNew := false } ]

end ecr

/-! ## Route 53 Resolver rules data source -/

namespace route53resolver

/-- The SDK type `route53resolver.ResolverRule`, at the fields the data source
reads; each is a `*string`. -/
structure ResolverRule where
  Id : Option String
  Name : Option String
  OwnerId : Option String
  ResolverEndpointId : Option String
  RuleType : Option String
  ShareStatus : Option String
deriving DecidableEq, Repr

/-- The SDK type `route53resolver.ListResolverRulesOutput`: one page. -/
structure ListResolverRulesOutput where
  ResolverRules : List ResolverRule
deriving DecidableEq, Repr

/-- What the remote listing delivers to `ListResolverRulesPagesWithContext`:
the pages in order, and the error that ended the listing (nil on success). -/
structure Listing where
  pages : List ListResolverRulesOutput
  err : Option GoError
deriving DecidableEq, Repr

/-- The `schema.ResourceData` of the data source: the identifier, the five
optional string arguments and the computed `resolver_rule_ids`, kept as the
slice that was written (the SDK stores it as a set). -/
structure ResourceData where
  id : String
  NameRegex : Option String
  OwnerId : Option String
  ResolverEndpointId : Option String
  RuleType : Option String
  ShareStatus : Option String
  ResolverRuleIds : List String
deriving DecidableEq, Repr

/-- The configured value under a key of the schema, `none` when not set. -/
def ResourceData.raw (d : ResourceData) (key : String) : Option String :=
  if key = "name_regex" then d.NameRegex
  else if key = "owner_id" then d.OwnerId
  else if key = "resolver_endpoint_id" then d.ResolverEndpointId
  else if key = "rule_type" then d.RuleType
  else if key = "share_status" then d.ShareStatus
  else none

/-- The method `d.GetOk(key)` on a string argument: the value, and whether it
is set to something other than the zero value `""`. -/
def ResourceData.GetOk (d : ResourceData) (key : String) : String × Bool :=
  (aws.StringValue (d.raw key), (d.raw key).isSome && aws.StringValue (d.raw key) != "")

/-- The method `d.SetId(v)`. -/
def ResourceData.SetId (d : ResourceData) (v : String) : ResourceData :=
  { d with id := v }

/-- The library function `aws.StringValueSlice`. -/
def StringValueSlice (ps : List (Option String)) : List String :=
  ps.map aws.StringValue

/-- The body of the `for` loop in the page callback, for one rule: `false`
stands for `continue`, `true` for reaching the `append`. The argument
`MatchString pattern text` is `regexp.MustCompile(pattern).MatchString(text)`
of the Go standard library. -/
def reachesAppend (MatchString : String → String → Bool) (d : ResourceData) (rule : ResolverRule) :
    Bool :=
  if (d.GetOk "name_regex").2 &&
      !MatchString (d.GetOk "name_regex").1 (aws.StringValue rule.Name) then false
  else if (d.GetOk "owner_id").2 &&
      aws.StringValue rule.OwnerId != (d.GetOk "owner_id").1 then false
  else if (d.GetOk "resolver_endpoint_id").2 &&
      aws.StringValue rule.ResolverEndpointId != (d.GetOk "resolver_endpoint_id").1 then false
  else if (d.GetOk "rule_type").2 &&
      aws.StringValue rule.RuleType != (d.GetOk "rule_type").1 then false
  else if (d.GetOk "share_status").2 &&
      aws.StringValue rule.ShareStatus != (d.GetOk "share_status").1 then false
  else true

/-- The page callback of `dataSourceRulesRead`: the rule IDs collected so far
grow by the IDs of the page's rules that reach the `append`; the answer
`!lastPage` asks for the next page. -/
def pageCallback (MatchString : String → String → Bool) (d : ResourceData)
    (ruleIDs : List (Option String)) (page : ListResolverRulesOutput) (lastPage : Bool) :
    List (Option String) × Bool :=
  (page.ResolverRules.foldl
      (fun ids rule => if reachesAppend MatchString d rule then ids ++ [rule.Id] else ids)
      ruleIDs,
    !lastPage)

/-- The pager behind `ListResolverRulesPagesWithContext`: it hands each page
to the callback, with `lastPage` set on the final page of a listing that did
not fail, and stops as soon as the callback answers `false`. -/
def ListResolverRulesPages {σ : Type} (failed : Bool)
    (fn : σ → ListResolverRulesOutput → Bool → σ × Bool) :
    List ListResolverRulesOutput → σ → σ
  | [], acc => acc
  | page :: rest, acc =>
    let r := fn acc page (rest.isEmpty && !failed)
    if r.2 then ListResolverRulesPages failed fn rest r.1 else r.1

/-- The handler `dataSourceRulesRead`; `Region` is `meta.(*conns.AWSClient).Region`. -/
def dataSourceRulesRead (MatchString : String → String → Bool) (listing : Listing)
    (Region : String) (d : ResourceData) : ResourceData × Diagnostics :=
  let ruleIDs : List (Option String) :=
    ListResolverRulesPages listing.err.isSome (pageCallback MatchString d) listing.pages []
  match listing.err with
  | some err => (d, diag.Errorf ("listing Route53 Resolver Rules: " ++ err.text))
  | none =>
    let d1 := d.SetId Region
    ({ d1 with ResolverRuleIds := StringValueSlice ruleIDs }, [])

/-- One filter argument as the data source documents it: an argument that is
unset or empty excludes nothing, a set one must pass its test. -/
def filterPasses (v : Option String) (test : String → Bool) : Bool :=
  match v with
  | none => true
  | some s => s == "" || test s

/-- The documented filter: a rule is selected when its name matches
`name_regex` and its owner, endpoint, type and share status equal `owner_id`,
`resolver_endpoint_id`, `rule_type` and `share_status`, each only if set. -/
def satisfiesFilters (MatchString : String → String → Bool) (d : ResourceData)
    (rule : ResolverRule) : Bool :=
  filterPasses d.NameRegex (fun s => MatchString s (aws.StringValue rule.Name)) &&
  filterPasses d.OwnerId (fun s => aws.StringValue rule.OwnerId == s) &&
  filterPasses d.ResolverEndpointId (fun s => aws.StringValue rule.ResolverEndpointId == s) &&
  filterPasses d.RuleType (fun s => aws.StringValue rule.RuleType == s) &&
  filterPasses d.ShareStatus (fun s => aws.StringValue rule.ShareStatus == s)

/-- All rules of a listing, page after page. -/
def allRules (pages : List ListResolverRulesOutput) : List ResolverRule :=
  (pages.map (fun page => page.ResolverRules)).flatten

end route53resolver

/-! ## EKS cluster -/

namespace fwdiag

/-- The framework method `Diagnostics.Append`: each new diagnostic is added
at the end unless an equal one is already there. -/
def Append (diags : Diagnostics) (more : Diagnostics) : Diagnostics :=
  more.foldl (fun acc x => if x ∈ acc then acc else acc ++ [x]) diags

/-- The framework method `Diagnostics.AddError(summary, detail)`. -/
def AddError (diags : Diagnostics) (summary detail : String) : Diagnostics :=
  Append diags [{ severity := Severity.Error, summary := summary, detail := detail }]

end fwdiag

namespace eks

/-- The record `accessConfigModel`. -/
structure accessConfigModel where
  AuthenticationMode : Option String := none
  BootstrapClusterCreatorAdminPermissions : Option Bool := none
deriving DecidableEq, Repr

/-- The record `bootstrapSelfManagedAddonsModel`. -/
structure bootstrapSelfManagedAddonsModel where
  Data : Option String := none
deriving DecidableEq, Repr

/-- The record `certificateAuthorityModel`. -/
structure certificateAuthorityModel where
  Data : Option String := none
deriving DecidableEq, Repr

/-- The record `encryptionConfigProviderModel`. -/
structure encryptionConfigProviderModel where
  KeyARN : Option String := none
deriving DecidableEq, Repr

/-- The record `encryptionConfigModel`. -/
structure encryptionConfigModel where
  Provider : encryptionConfigProviderModel := {}
  Resources : Option (List String) := none
deriving DecidableEq, Repr

/-- The record `identityOidcModel`. -/
structure identityOidcModel where
  Issuer : Option String := none
deriving DecidableEq, Repr

/-- The record `identityModel`. -/
structure identityModel where
  Oidc : identityOidcModel := {}
deriving DecidableEq, Repr

/-- The record `kubernetesNetworkConfigModel`. -/
structure kubernetesNetworkConfigModel where
  IpFamily : Option String := none
  ServiceIpv4Cidr : Option String := none
  ServiceIpv6Cidr : Option String := none
deriving DecidableEq, Repr

/-- The record `controlPlanePlacementModel`. -/
structure controlPlanePlacementModel where
  GroupName : Option String := none
deriving DecidableEq, Repr

/-- The record `outpostConfigModel`. -/
structure outpostConfigModel where
  ControlPlaneInstanceType : Option String := none
  ControlPlanePlacement : controlPlanePlacementModel := {}
  OutpostArns : Option (List String) := none
deriving DecidableEq, Repr

/-- The record `upgradePolicyModel`. -/
structure upgradePolicyModel where
  SupportType : Option String := none
deriving DecidableEq, Repr

/-- The record `vpcConfigModel`. -/
structure vpcConfigModel where
  ClusterSecurityGroupID : Option String := none
  EndpointPrivateAccess : Option Bool := none
  EndpointPublicAccess : Option Bool := none
  PublicAccessCidrs : Option (List String) := none
  SecurityGroupIDs : Option (List String) := none
  SubnetIDs : Option (List String) := none
  VpcID : Option String := none
deriving DecidableEq, Repr

/-- The value `timeouts.Value`: the configured create, update and delete timeouts. -/
structure timeoutsValue where
  Create : Option String := none
  Update : Option String := none
  Delete : Option String := none
deriving DecidableEq, Repr

/-- The state record `clusterResourceModel`, field for field; a framework
value that is null is `none`, and every default is the Go zero value. -/
structure clusterResourceModel where
  AccessConfig : accessConfigModel := {}
  ARN : Option String := none
  BootstrapSelfManagedAddons : Option (List bootstrapSelfManagedAddonsModel) := none
  CertificateAuthority : certificateAuthorityModel := {}
  ClusterId : Option String := none
  CreatedAt : Option String := none
  EnabledClusterLogTypes : Option (List String) := none
  EncryptionConfig : encryptionConfigModel := {}
  Endpoint : Option String := none
  Identity : identityModel := {}
  KubernetesNetworkConfig : kubernetesNetworkConfigModel := {}
  Name : Option String := none
  OutpostConfig : outpostConfigModel := {}
  PlatformVersion : Option String := none
  RoleARN : Option String := none
  Status : Option String := none
  Tags : Option (List (String × String)) := none
  TagsAll : Option (List (String × String)) := none
  Timeouts : timeoutsValue := {}
  UpgradePolicy : Option (List upgradePolicyModel) := none
  Version : Option String := none
  VPCConfig : vpcConfigModel := {}
deriving DecidableEq, Repr

/-- The method `ValueString` of `types.String`: `""` for a null value. -/
def ValueString (v : Option String) : String :=
  v.getD ""

/-- The function `types.StringValue`: a known, non-null string. -/
def StringValue (s : String) : Option String :=
  some s

/-- The library function `aws.ToString` of the v2 SDK. -/
def ToString (p : Option String) : String :=
  p.getD ""

/-- The framework type `tfsdk.State`: the stored record, `none` once the
resource is removed from state. -/
structure State where
  Raw : Option clusterResourceModel
deriving DecidableEq, Repr

/-- The framework type `tfsdk.Plan`: the planned record. -/
structure Plan where
  Raw : Option clusterResourceModel
deriving DecidableEq, Repr

/-- The part of the plugin framework the handlers rely on and the sources do
not contain: the diagnostics that decoding a state into `clusterResourceModel`
reports, those that encoding a record into the state reports, and those that
decoding a plan into `clusterResourceModel` reports. What the framework
reports for the schema and record of this resource is `clusterFramework`. -/
structure Framework where
  getDiags : State → Diagnostics
  setDiags : clusterResourceModel → Diagnostics
  planDiags : Plan → Diagnostics

/-- The method `State.Get(ctx, &target)`: the target after the call and the
diagnostics; the target is written only when decoding reports no error. -/
def State.Get (fw : Framework) (s : State) (target : clusterResourceModel) :
    clusterResourceModel × Diagnostics :=
  let diags := fw.getDiags s
  if diags.HasError then (target, diags)
  else
    match s.Raw with
    | some m => (m, diags)
    | none => (target, diags)

/-- The method `State.Set(ctx, &val)`: the state after the call and the
diagnostics; the state is written only when encoding reports no error. -/
def State.Set (fw : Framework) (s : State) (val : clusterResourceModel) : State × Diagnostics :=
  let diags := fw.setDiags val
  if diags.HasError then (s, diags) else ({ Raw := some val }, diags)

/-- The method `Plan.Get(ctx, &target)`: the target after the call and the
diagnostics; the target is written only when decoding reports no error. -/
def Plan.Get (fw : Framework) (p : Plan) (target : clusterResourceModel) :
    clusterResourceModel × Diagnostics :=
  let diags := fw.planDiags p
  if diags.HasError then (target, diags)
  else
    match p.Raw with
    | some m => (m, diags)
    | none => (target, diags)

/-- The method `State.RemoveResource`. -/
def State.RemoveResource (_s : State) : State :=
  { Raw := none }

/-- The SDK type `eks.DescribeClusterInput`. -/
structure DescribeClusterInput where
  Name : Option String
deriving DecidableEq, Repr

/-- The SDK type `eks.DeleteClusterInput`. -/
structure DeleteClusterInput where
  Name : Option String
deriving DecidableEq, Repr

/-- The SDK type `awstypes.Cluster`, at the fields the adapter reads. -/
structure Cluster where
  Arn : Option String
  Status : String
deriving DecidableEq, Repr

/-- The SDK type `eks.DescribeClusterOutput`. -/
structure DescribeClusterOutput where
  Cluster : Cluster
deriving DecidableEq, Repr

/-- The SDK type `awstypes.VpcConfigRequest`, at the field the adapter sets. -/
structure VpcConfigRequest where
  SubnetIds : List String
deriving DecidableEq, Repr

/-- The SDK type `eks.CreateClusterInput`, at the fields the adapter sets. -/
structure CreateClusterInput where
  BootstrapSelfManagedAddons : Option Bool
  Name : Option String
  RoleArn : Option String
  ResourcesVpcConfig : Option VpcConfigRequest
deriving DecidableEq, Repr

/-- The SDK type `eks.CreateClusterOutput`. -/
structure CreateClusterOutput where
  Cluster : Cluster
deriving DecidableEq, Repr

/-- One call made on the EKS client. -/
inductive Call where
  | DescribeCluster (input : DescribeClusterInput)
  | DeleteCluster (input : DeleteClusterInput)
  | CreateCluster (input : CreateClusterInput)
deriving DecidableEq, Repr

/-- The EKS client over a remote world `W`. -/
structure Client (W : Type) where
  DescribeCluster : W → DescribeClusterInput → Except GoError DescribeClusterOutput × W
  DeleteCluster : W → DeleteClusterInput → Option GoError × W
  CreateCluster : W → CreateClusterInput → Except GoError CreateClusterOutput × W

/-- The helpers of the packages `flex` and `framework/flex` that
`clusterResource.Create` calls and the sources do not contain, taken as they
are used: `ExpandBoolValue` and `ExpandStringValueSet` turn a framework value
into a request field, and `Expand` fills the request from the record and
reports diagnostics. -/
structure Flex where
  ExpandBoolValue : Option (List bootstrapSelfManagedAddonsModel) → Option Bool
  ExpandStringValueSet : Option (List String) → List String
  Expand : clusterResourceModel → CreateClusterInput → CreateClusterInput × Diagnostics

/-- The SDK error code of `awstypes.ResourceNotFoundException`. -/
def ErrCodeResourceNotFoundException : String :=
  "ResourceNotFoundException"

/-- The type `resource.ReadRequest`. -/
structure ReadRequest where
  State : State
deriving DecidableEq, Repr

/-- The type `resource.ReadResponse`. -/
structure ReadResponse where
  State : State
  Diagnostics : Diagnostics
deriving DecidableEq, Repr

/-- The type `resource.DeleteRequest`. -/
structure DeleteRequest where
  State : State
deriving DecidableEq, Repr

/-- The type `resource.DeleteResponse`. -/
structure DeleteResponse where
  State : State
  Diagnostics : Diagnostics
deriving DecidableEq, Repr

/-- What `clusterResource.Read` leaves behind. -/
structure ReadOutcome (W : Type) where
  response : ReadResponse
  world : W
  calls : List Call

/-- What `clusterResource.Delete` leaves behind. -/
structure DeleteOutcome (W : Type) where
  response : DeleteResponse
  world : W
  calls : List Call

/-- The method `clusterResource.Read`. -/
def clusterResource.Read {W : Type} (fw : Framework) (client : Client W) (w : W)
    (request : ReadRequest) (response : ReadResponse) : ReadOutcome W :=
  let data : clusterResourceModel := {}
  let got := State.Get fw request.State data
  let data := got.1
  let response := { response with Diagnostics := fwdiag.Append response.Diagnostics got.2 }
  if response.Diagnostics.HasError then
    { response := response, world := w, calls := [] }
  else
    let input : DescribeClusterInput := { Name := aws.String (ValueString data.Name) }
    let res := client.DescribeCluster w input
    match res.1 with
    | Except.error err =>
      { response :=
          { response with
            Diagnostics := fwdiag.AddError response.Diagnostics "Error reading EKS Cluster" err.text }
        world := res.2
        calls := [Call.DescribeCluster input] }
    | Except.ok output =>
      let data := { data with ARN := StringValue (ToString output.Cluster.Arn) }
      let data := { data with Status := StringValue output.Cluster.Status }
      let got := State.Get fw request.State data
      let data := got.1
      let response := { response with Diagnostics := fwdiag.Append response.Diagnostics got.2 }
      if response.Diagnostics.HasError then
        { response := response, world := res.2, calls := [Call.DescribeCluster input] }
      else
        let put := State.Set fw response.State data
        { response :=
            { State := put.1, Diagnostics := fwdiag.Append response.Diagnostics put.2 }
          world := res.2
          calls := [Call.DescribeCluster input] }

/-- The method `clusterResource.Delete`. -/
def clusterResource.Delete {W : Type} (fw : Framework) (client : Client W) (w : W)
    (request : DeleteRequest) (response : DeleteResponse) : DeleteOutcome W :=
  let state : clusterResourceModel := {}
  let got := State.Get fw request.State state
  let state := got.1
  let response := { response with Diagnostics := fwdiag.Append response.Diagnostics got.2 }
  if response.Diagnostics.HasError then
    { response := response, world := w, calls := [] }
  else
    let input : DeleteClusterInput := { Name := aws.String (ValueString state.Name) }
    let res := client.DeleteCluster w input
    match res.1 with
    | some err =>
      { response :=
          { response with
            Diagnostics := fwdiag.AddError response.Diagnostics "Error deleting EKS Cluster" err.text }
        world := res.2
        calls := [Call.DeleteCluster input] }
    | none => { response := response, world := res.2, calls := [Call.DeleteCluster input] }

/-- The type `resource.CreateRequest`. -/
structure CreateRequest where
  Plan : Plan
deriving DecidableEq, Repr

/-- The type `resource.CreateResponse`. -/
structure CreateResponse where
  State : State
  Diagnostics : Diagnostics
deriving DecidableEq, Repr

/-- What `clusterResource.Create` leaves behind. The component `identifier`
is the value the handler assigned by `data.ID = ...`, and `none` when that
line was not reached: `clusterResourceModel` declares no field `ID`, so the
value has no place in the record and is no part of what `State.Set` encodes. -/
structure CreateOutcome (W : Type) where
  response : CreateResponse
  world : W
  calls : List Call
  identifier : Option String

/-- The request `clusterResource.Create` builds before `Expand`. -/
def createClusterInput (flex : Flex) (data : clusterResourceModel) : CreateClusterInput :=
  { BootstrapSelfManagedAddons := flex.ExpandBoolValue data.BootstrapSelfManagedAddons
    Name := aws.String (ValueString data.Name)
    RoleArn := aws.String (ValueString data.RoleARN)
    ResourcesVpcConfig := some { SubnetIds := flex.ExpandStringValueSet data.VPCConfig.SubnetIDs } }

/-- The method `clusterResource.Create`. The value `createTimeout` it computes
is not used and is left out. -/
def clusterResource.Create {W : Type} (fw : Framework) (flex : Flex) (client : Client W) (w : W)
    (request : CreateRequest) (response : CreateResponse) : CreateOutcome W :=
  let data : clusterResourceModel := {}
  let got := Plan.Get fw request.Plan data
  let data := got.1
  let response := { response with Diagnostics := fwdiag.Append response.Diagnostics got.2 }
  if response.Diagnostics.HasError then
    { response := response, world := w, calls := [], identifier := none }
  else
    let input := createClusterInput flex data
    let expanded := flex.Expand data input
    let input := expanded.1
    let response := { response with Diagnostics := fwdiag.Append response.Diagnostics expanded.2 }
    if response.Diagnostics.HasError then
      { response := response, world := w, calls := [], identifier := none }
    else
      let res := client.CreateCluster w input
      match res.1 with
      | Except.error err =>
        { response :=
            { response with
              Diagnostics :=
                fwdiag.AddError response.Diagnostics "Error creating EKS Cluster" err.text }
          world := res.2
          calls := [Call.CreateCluster input]
          identifier := none }
      | Except.ok output =>
        let data := { data with ARN := StringValue (ToString output.Cluster.Arn) }
        let data := { data with Status := StringValue output.Cluster.Status }
        let put := State.Set fw response.State data
        let response : CreateResponse :=
          { State := put.1, Diagnostics := fwdiag.Append response.Diagnostics put.2 }
        let identifier := StringValue "TODO"
        let put := State.Set fw response.State data
        { response :=
            { State := put.1, Diagnostics := fwdiag.Append response.Diagnostics put.2 }
          world := res.2
          calls := [Call.CreateCluster input]
          identifier := identifier }

/-- The classes `[0-9A-Za-z]` of the cluster name pattern, as a list. -/
def alnumChars : List Char :=
  charRange '0' '9' ++ charRange 'A' 'Z' ++ charRange 'a' 'z'

/-- The pattern of the cluster name validator, `^[0-9A-Za-z][0-9A-Za-z_-]*$`. -/
def nameRegexp : Regexp :=
  { anchoredStart := true
    anchoredEnd := true
    body := RegularExpression.comp (charClass alnumChars)
      (RegularExpression.star (charClass (alnumChars ++ ['_', '-']))) }

/-- The message the cluster name validator reports on a mismatch. -/
def nameMessage : String :=
  "must start with alphanumeric character and consist of alphanumeric characters, or hyphens"

/-- The framework validator `stringvalidator.RegexMatches(regexp, message)`:
true when it reports no error. -/
def stringvalidator.RegexMatches (r : Regexp) (v : String) : Bool :=
  r.MatchString v

/-- The framework validator `stringvalidator.LengthBetween(min, max)`: true
when it reports no error. -/
def stringvalidator.LengthBetween (min max : Nat) (v : String) : Bool :=
  !(len v < min || len v > max)

/-- The `Validators` of the `name` attribute: a value is accepted when no
validator of the list reports an error. -/
def validateName (v : String) : Bool :=
  [stringvalidator.RegexMatches nameRegexp, stringvalidator.LengthBetween 1 100].all
    (fun f => f v)

/-- The characters the validator message allows in a cluster name:
alphanumeric characters or hyphens. -/
def allowedNameChar (c : Char) : Bool :=
  c.isAlphanum || c == '-'

end eks

/-! ## The EKS cluster schema: names and conflicts -/

namespace names

/-- Modelled from the spec: the constants of package `names` are not among the
sources; each is taken to be the attribute name its identifier spells, as the
`tfsdk` tags of the state record spell the same attributes. -/
def AttrARN : String := "arn"

/-- Modelled from the spec: see `AttrARN`. -/
def AttrCreatedAt : String := "created_at"

/-- Modelled from the spec: see `AttrARN`. -/
def AttrEndpoint : String := "endpoint"

/-- Modelled from the spec: see `AttrARN`. -/
def AttrID : String := "id"

/-- Modelled from the spec: see `AttrARN`. -/
def AttrName : String := "name"

/-- Modelled from the spec: see `AttrARN`. -/
def AttrRoleARN : String := "role_arn"

/-- Modelled from the spec: see `AttrARN`. -/
def AttrStatus : String := "status"

/-- Modelled from the spec: see `AttrARN`. -/
def AttrTags : String := "tags"

/-- Modelled from the spec: see `AttrARN`. -/
def AttrTagsAll : String := "tags_all"

/-- Modelled from the spec: see `AttrARN`. -/
def AttrVersion : String := "version"

/-- Modelled from the spec: see `AttrARN`. -/
def AttrVPCConfig : String := "vpc_config"

end names

namespace eks

/-- The keys of the `Attributes` map of `clusterResource.Schema`, in source order. -/
def schemaAttributeNames : List String :=
  [ names.AttrARN, "bootstrap_self_managed_addons", "cluster_id", names.AttrCreatedAt,
    "enabled_cluster_log_types", names.AttrEndpoint, names.AttrID, names.AttrName,
    "platform_version", names.AttrRoleARN, names.AttrStatus, names.AttrTags, names.AttrTagsAll,
    names.AttrVersion ]

/-- One top-level block of the schema: its key and the sibling blocks its
`objectvalidator.ConflictsWith` validators name
(`path.MatchRelative().AtParent().AtName(...)`). -/
structure SchemaBlock where
  name : String
  ConflictsWith : List String
deriving DecidableEq, Repr

/-- The `Blocks` map of `clusterResource.Schema`, in source order, with the
`timeouts` block that is added after the literal. -/
def schemaBlocks : List SchemaBlock :=
  [ { name := "access_config", ConflictsWith := [] },
    { name := "certificate_authority", ConflictsWith := [] },
    { name := "encryption_config", ConflictsWith := ["outpost_config"] },
    { name := "identity", ConflictsWith := [] },
    { name := "kubernetes_network_config", ConflictsWith := ["outpost_config"] },
    { name := "outpost_config",
      ConflictsWith := ["encryption_config", "kubernetes_network_config"] },
    { name := "upgrade_policy", ConflictsWith := [] },
    { name := names.AttrVPCConfig, ConflictsWith := [] },
    { name := "timeouts", ConflictsWith := [] } ]

/-- Every top-level name the schema declares: attributes, then blocks. -/
def schemaNames : List String :=
  schemaAttributeNames ++ schemaBlocks.map (fun b => b.name)

/-- The `tfsdk` tags of the fields of `clusterResourceModel`, in source order. -/
def modelTfsdkNames : List String :=
  [ "access_config", "arn", "bootstrap_self_managed_addons", "certificate_authority",
    "cluster_id", "created_at", "enabled_cluster_log_types", "encryption_config", "endpoint",
    "identity", "kubernetes_network_config", "name", "outpost_config", "platform_version",
    "role_arn", "status", "tags", "tags_all", "timeouts", "upgrade_policy", "version",
    "vpc_config" ]

/-- What the framework reports when it reads an object into a struct: the
names the object defines and the struct has no field for. -/
def objectFieldsMissingInStruct (objectNames structNames : List String) : List String :=
  objectNames.filter (fun n => !structNames.contains n)

/-- What the framework reports when it reads an object into a struct: the
names the struct has a field for and the object does not define. -/
def structFieldsMissingInObject (objectNames structNames : List String) : List String :=
  structNames.filter (fun n => !objectNames.contains n)

/-- Whether block `a` of the schema declares `ConflictsWith` block `b`. -/
def declaresConflict (a b : String) : Bool :=
  schemaBlocks.any (fun blk => blk.name == a && blk.ConflictsWith.contains b)

/-- The validators of one block, on a configuration given by the names of the
blocks it sets: `ConflictsWith` reports an error when the block is set and a
block it names is set too. True when an error is reported. -/
def blockValidationFails (configured : List String) (blk : SchemaBlock) : Bool :=
  configured.contains blk.name && blk.ConflictsWith.any (fun other => configured.contains other)

/-- One sentence of the mismatch report, empty when no name is missing. -/
def mismatchSentence (label : String) (missing : List String) : List String :=
  if missing = [] then [] else [label ++ ", ".intercalate missing ++ "."]

/-- What the framework reports when it converts between an object of the
given names and a struct of the given `tfsdk` names: nothing when the names
agree, and one "Value Conversion Error" naming the mismatch otherwise. -/
def reflectDiags (objectNames structNames : List String) : Diagnostics :=
  if objectFieldsMissingInStruct objectNames structNames = [] ∧
      structFieldsMissingInObject objectNames structNames = [] then []
  else
    [{ severity := Severity.Error
       summary := "Value Conversion Error"
       detail := "mismatch between struct and object: " ++ " ".intercalate
         (mismatchSentence "Struct defines fields not found in object: "
            (structFieldsMissingInObject objectNames structNames) ++
          mismatchSentence "Object defines fields not found in struct: "
            (objectFieldsMissingInStruct objectNames structNames)) }]

/-- The framework as it behaves for this resource: every conversion between
a plan or state of `clusterResource.Schema` and `clusterResourceModel` reports
what the names of the two give. -/
def clusterFramework : Framework :=
  { getDiags := fun _ => reflectDiags schemaNames modelTfsdkNames
    setDiags := fun _ => reflectDiags schemaNames modelTfsdkNames
    planDiags := fun _ => reflectDiags schemaNames modelTfsdkNames }

end eks

/-! ## Sample inputs -/

section ecrSamples

open ecr

/-- A connection whose finder reports not-found and whose calls all succeed. -/
def absentConn : Conn Unit :=
  { CreatePullThroughCacheRuleWithContext := fun w _ => (none, w)
    UpdatePullThroughCacheRuleWithContext := fun w _ => (none, w)
    DeletePullThroughCacheRuleWithContext := fun w _ => (none, w)
    FindPullThroughCacheRuleByRepositoryPrefix := fun _ _ =>
      Except.error { text := "couldn't find resource", code := none, notFound := true } }

/-- A remote rule, as a lookup returns it. -/
def sampleRule : PullThroughCacheRule :=
  { EcrRepositoryPrefix := some "ecr-public"
    RegistryId := some "123456789012"
    UpstreamRegistryUrl := some "public.ecr.aws"
    CredentialArn := none }

/-- A connection over the set of created prefixes: create records the
prefix, the finder answers for recorded prefixes only. -/
def storeConn : Conn (List String) :=
  { CreatePullThroughCacheRuleWithContext := fun w input =>
      (none, aws.StringValue input.EcrRepositoryPrefix :: w)
    UpdatePullThroughCacheRuleWithContext := fun w _ => (none, w)
    DeletePullThroughCacheRuleWithContext := fun w input =>
      if aws.StringValue input.EcrRepositoryPrefix ∈ w then
        (none, w.erase (aws.StringValue input.EcrRepositoryPrefix))
      else
        (some { text := "PullThroughCacheRuleNotFoundException: no such rule"
                code := some ErrCodePullThroughCacheRuleNotFoundException
                notFound := false }, w)
    FindPullThroughCacheRuleByRepositoryPrefix := fun w repositoryPrefix =>
      if repositoryPrefix ∈ w then Except.ok { sampleRule with EcrRepositoryPrefix := some repositoryPrefix }
      else Except.error { text := "couldn't find resource", code := none, notFound := true } }

/-- A connection whose create call is refused. -/
def refusingConn : Conn Unit :=
  { absentConn with
    CreatePullThroughCacheRuleWithContext := fun w _ =>
      (some { text := "LimitExceededException: too many rules"
              code := some "LimitExceededException"
              notFound := false }, w) }

/-- A stored state of a pull-through cache rule. -/
def storedState : ResourceData :=
  { id := "ecr-public"
    isNew := false
    EcrRepositoryPrefix := some "ecr-public"
    RegistryId := some "123456789012"
    UpstreamRegistryUrl := some "public.ecr.aws"
    CredentialArn := none }

/-- A planned configuration before create: no identifier yet, marked new. -/
def plannedState : ResourceData :=
  { id := ""
    isNew := true
    EcrRepositoryPrefix := some "ecr-public"
    RegistryId := none
    UpstreamRegistryUrl := some "public.ecr.aws"
    CredentialArn := none }

end ecrSamples

section route53Samples

open route53resolver

/-- A data source configuration: rules of type FORWARD whose name contains `corp`. -/
def sampleConfig : ResourceData :=
  { id := ""
    NameRegex := some "corp"
    OwnerId := none
    ResolverEndpointId := some ""
    RuleType := some "FORWARD"
    ShareStatus := none
    ResolverRuleIds := [] }

/-- A stand-in for `regexp.MustCompile(p).MatchString(s)` on the sample
pattern: the names that contain `corp`. -/
def sampleMatch (_pattern : String) (text : String) : Bool :=
  text == "corp-a" || text == "b-corp"

/-- A listing of two pages with three rules, two of which are selected. -/
def sampleListing : Listing :=
  { pages :=
      [ { ResolverRules :=
            [ { Id := some "rslvr-rr-1", Name := some "corp-a", OwnerId := some "111122223333"
                ResolverEndpointId := some "rslvr-out-1", RuleType := some "FORWARD"
                ShareStatus := some "NOT_SHARED" },
              { Id := some "rslvr-rr-2", Name := some "other", OwnerId := some "111122223333"
                ResolverEndpointId := none, RuleType := some "SYSTEM"
                ShareStatus := some "NOT_SHARED" } ] },
        { ResolverRules :=
            [ { Id := some "rslvr-rr-3", Name := some "b-corp", OwnerId := some "444455556666"
                ResolverEndpointId := some "rslvr-out-2", RuleType := some "FORWARD"
                ShareStatus := some "SHARED_WITH_ME" } ] } ]
    err := none }

end route53Samples

section eksSamples

open eks

/-- The error of a call that names a cluster the service does not have. -/
def clusterNotFound : GoError :=
  { text := "ResourceNotFoundException: No cluster found for name: demo."
    code := some ErrCodeResourceNotFoundException
    notFound := true }

/-- A client of a service that has no cluster: every call reports not-found. -/
def absentClient : Client Unit :=
  { DescribeCluster := fun w _ => (Except.error clusterNotFound, w)
    DeleteCluster := fun w _ => (some clusterNotFound, w)
    CreateCluster := fun w _ => (Except.error clusterNotFound, w) }

/-- The stored state of a cluster created in an earlier run. -/
def storedCluster : State :=
  { Raw := some
      { Name := some "demo"
        ARN := some "arn:aws:eks:us-east-1:123456789012:cluster/demo"
        RoleARN := some "arn:aws:iam::123456789012:role/eks"
        Status := some "ACTIVE" } }

/-- Helpers that expand values as they are and add nothing to the request. -/
def plainFlex : Flex :=
  { ExpandBoolValue := fun _ => some true
    ExpandStringValueSet := fun v => v.getD []
    Expand := fun _ input => (input, []) }

/-- A client of a service that creates every cluster asked for: the world is
the list of cluster names, the answer carries the ARN of the new cluster. -/
def creatingClient : Client (List String) :=
  { DescribeCluster := fun w _ => (Except.error clusterNotFound, w)
    DeleteCluster := fun w _ => (none, w)
    CreateCluster := fun w input =>
      (Except.ok
        { Cluster :=
            { Arn := some ("arn:aws:eks:us-east-1:123456789012:cluster/" ++
                aws.StringValue input.Name)
              Status := "CREATING" } },
        aws.StringValue input.Name :: w) }

/-- The plan of a new cluster of the given name. -/
def plannedCluster (name : String) : Plan :=
  { Raw := some
      { Name := some name
        RoleARN := some "arn:aws:iam::123456789012:role/eks"
        VPCConfig := { SubnetIDs := some ["subnet-1", "subnet-2"] } } }

/-- The response a create starts from: no state yet, no diagnostics. -/
def emptyCreateResponse : CreateResponse :=
  { State := { Raw := none }, Diagnostics := [] }

end eksSamples

/-! ## Properties of the ECR pull-through cache rule adapter -/

section ecrTheorems

open ecr

/-- C1: when the lookup by the stored identifier reports not-found and the
resource is not marked new, Read sets the identifier to the empty string,
returns no diagnostic and leaves the four attributes as they were. -/
theorem read_not_found_clears_id {W : Type} (conn : Conn W) (d : ResourceData) (w : W)
    (hnf : tfresource.NotFound (errOf (conn.FindPullThroughCacheRuleByRepositoryPrefix w d.Id)) = true)
    (hnew : d.IsNewResource = false) :
    (resourcePullThroughCacheRuleRead conn d w).d.Id = "" ∧
    (resourcePullThroughCacheRuleRead conn d w).diags = [] ∧
    (resourcePullThroughCacheRuleRead conn d w).d.EcrRepositoryPrefix = d.EcrRepositoryPrefix ∧
    (resourcePullThroughCacheRuleRead conn d w).d.RegistryId = d.RegistryId ∧
    (resourcePullThroughCacheRuleRead conn d w).d.UpstreamRegistryUrl = d.UpstreamRegistryUrl ∧
    (resourcePullThroughCacheRuleRead conn d w).d.CredentialArn = d.CredentialArn := by
  have hread : resourcePullThroughCacheRuleRead conn d w =
      { d := d.SetId "", diags := [], world := w,
        calls := [Call.FindPullThroughCacheRuleByRepositoryPrefix d.Id] } := by
    unfold resourcePullThroughCacheRuleRead
    simp only [hnf, hnew, Bool.not_false, Bool.and_self, if_true]
  rw [hread]
  exact ⟨rfl, rfl, rfl, rfl, rfl, rfl⟩

/-- Witness of C1: the stored state read against a registry without the rule. -/
theorem read_not_found_clears_id_witness :
    (resourcePullThroughCacheRuleRead absentConn storedState ()).d.Id = "" ∧
    (resourcePullThroughCacheRuleRead absentConn storedState ()).diags = [] ∧
    (resourcePullThroughCacheRuleRead absentConn storedState ()).d.EcrRepositoryPrefix
      = storedState.EcrRepositoryPrefix ∧
    (resourcePullThroughCacheRuleRead absentConn storedState ()).d.RegistryId
      = storedState.RegistryId ∧
    (resourcePullThroughCacheRuleRead absentConn storedState ()).d.UpstreamRegistryUrl
      = storedState.UpstreamRegistryUrl ∧
    (resourcePullThroughCacheRuleRead absentConn storedState ()).d.CredentialArn
      = storedState.CredentialArn :=
  read_not_found_clears_id absentConn storedState () rfl rfl

/-- C2: Delete returns an error diagnostic exactly when the delete call
returns an error whose code is not PullThroughCacheRuleNotFoundException; a
successful call and a call failing with that code both return the empty
diagnostics, and the state is never touched. -/
theorem delete_error_iff_not_notfound {W : Type} (conn : Conn W) (d : ResourceData) (w : W) :
    ((resourcePullThroughCacheRuleDelete conn d w).diags.HasError = true ↔
      ∃ err, (conn.DeletePullThroughCacheRuleWithContext w (deleteInput d)).1 = some err ∧
        err.code ≠ some ErrCodePullThroughCacheRuleNotFoundException) ∧
    ((conn.DeletePullThroughCacheRuleWithContext w (deleteInput d)).1 = none →
      (resourcePullThroughCacheRuleDelete conn d w).diags = []) ∧
    (∀ err, (conn.DeletePullThroughCacheRuleWithContext w (deleteInput d)).1 = some err →
      err.code = some ErrCodePullThroughCacheRuleNotFoundException →
      (resourcePullThroughCacheRuleDelete conn d w).diags = []) := by
  simp only [resourcePullThroughCacheRuleDelete]
  generalize conn.DeletePullThroughCacheRuleWithContext w (deleteInput d) = res
  rcases res with ⟨_ | err, w1⟩
  · simp [tfawserr.ErrCodeEquals, Diagnostics.HasError]
  · by_cases hc : err.code = some ErrCodePullThroughCacheRuleNotFoundException
    · simp [tfawserr.ErrCodeEquals, hc, Diagnostics.HasError]
    · simp [tfawserr.ErrCodeEquals, hc, Diagnostics.HasError, sdkdiag.AppendErrorf, diag.Errorf]

/-- Witness of C2: deleting a rule the registry no longer has returns the same
empty diagnostics as deleting one it has. -/
theorem delete_error_iff_not_notfound_witness :
    (resourcePullThroughCacheRuleDelete storeConn storedState []).diags = [] ∧
    (resourcePullThroughCacheRuleDelete storeConn storedState ["ecr-public"]).diags = [] :=
  ⟨(delete_error_iff_not_notfound storeConn storedState []).2.2 _ rfl rfl,
   (delete_error_iff_not_notfound storeConn storedState ["ecr-public"]).2.1 rfl⟩

/-- C3: on a successful lookup Read returns no diagnostics, keeps the
identifier and sets the four attributes to the fields of the returned rule. -/
theorem read_found_populates {W : Type} (conn : Conn W) (d : ResourceData) (w : W)
    (rule : PullThroughCacheRule)
    (hfound : conn.FindPullThroughCacheRuleByRepositoryPrefix w d.Id = Except.ok rule) :
    (resourcePullThroughCacheRuleRead conn d w).diags = [] ∧
    (resourcePullThroughCacheRuleRead conn d w).d.Id = d.Id ∧
    (resourcePullThroughCacheRuleRead conn d w).d.EcrRepositoryPrefix = rule.EcrRepositoryPrefix ∧
    (resourcePullThroughCacheRuleRead conn d w).d.RegistryId = rule.RegistryId ∧
    (resourcePullThroughCacheRuleRead conn d w).d.UpstreamRegistryUrl = rule.UpstreamRegistryUrl ∧
    (resourcePullThroughCacheRuleRead conn d w).d.CredentialArn = rule.CredentialArn := by
  have hread : resourcePullThroughCacheRuleRead conn d w =
      { d := (((d.Set "ecr_repository_prefix" rule.EcrRepositoryPrefix).Set
                "registry_id" rule.RegistryId).Set
                "upstream_registry_url" rule.UpstreamRegistryUrl).Set
                "credential_arn" rule.CredentialArn
        diags := [], world := w,
        calls := [Call.FindPullThroughCacheRuleByRepositoryPrefix d.Id] } := by
    unfold resourcePullThroughCacheRuleRead
    simp only [hfound, errOf, tfresource.NotFound, Bool.and_false, Bool.false_eq_true, if_false]
  rw [hread]
  simp [ResourceData.Set, ResourceData.Id]

/-- Witness of C3: the stored state read against a registry that has the rule. -/
theorem read_found_populates_witness :
    (resourcePullThroughCacheRuleRead storeConn storedState ["ecr-public"]).diags = [] ∧
    (resourcePullThroughCacheRuleRead storeConn storedState ["ecr-public"]).d.Id
      = storedState.Id ∧
    (resourcePullThroughCacheRuleRead storeConn storedState ["ecr-public"]).d.EcrRepositoryPrefix
      = some "ecr-public" ∧
    (resourcePullThroughCacheRuleRead storeConn storedState ["ecr-public"]).d.RegistryId
      = some "123456789012" ∧
    (resourcePullThroughCacheRuleRead storeConn storedState ["ecr-public"]).d.UpstreamRegistryUrl
      = some "public.ecr.aws" ∧
    (resourcePullThroughCacheRuleRead storeConn storedState ["ecr-public"]).d.CredentialArn
      = none :=
  read_found_populates storeConn storedState ["ecr-public"]
    { sampleRule with EcrRepositoryPrefix := some "ecr-public" } rfl

/-- C4: when the create call succeeds, Create issues the request carrying
the configured prefix, stores that prefix as the identifier and then performs a
Read: its state, diagnostics and world are those of Read run on the state
whose identifier is the prefix, in the world the create call left, and the
calls made are the create followed by the lookup of that prefix. -/
theorem create_success_is_read_of_set_id {W : Type} (conn : Conn W) (d : ResourceData) (w : W)
    (hok : (conn.CreatePullThroughCacheRuleWithContext w (createInput d)).1 = none) :
    (createInput d).EcrRepositoryPrefix = some (d.Get "ecr_repository_prefix") ∧
    (resourcePullThroughCacheRuleCreate conn d w).d =
      (resourcePullThroughCacheRuleRead conn (d.SetId (d.Get "ecr_repository_prefix"))
        (conn.CreatePullThroughCacheRuleWithContext w (createInput d)).2).d ∧
    (resourcePullThroughCacheRuleCreate conn d w).diags =
      (resourcePullThroughCacheRuleRead conn (d.SetId (d.Get "ecr_repository_prefix"))
        (conn.CreatePullThroughCacheRuleWithContext w (createInput d)).2).diags ∧
    (resourcePullThroughCacheRuleCreate conn d w).world =
      (resourcePullThroughCacheRuleRead conn (d.SetId (d.Get "ecr_repository_prefix"))
        (conn.CreatePullThroughCacheRuleWithContext w (createInput d)).2).world ∧
    (resourcePullThroughCacheRuleCreate conn d w).calls =
      [Call.CreatePullThroughCacheRule (createInput d),
       Call.FindPullThroughCacheRuleByRepositoryPrefix (d.Get "ecr_repository_prefix")] := by
  have hcalls : ∀ (d1 : ResourceData) (w1 : W),
      (resourcePullThroughCacheRuleRead conn d1 w1).calls =
        [Call.FindPullThroughCacheRuleByRepositoryPrefix d1.Id] := by
    intro d1 w1
    simp only [resourcePullThroughCacheRuleRead]
    split
    · rfl
    · split <;> rfl
  have hcreate : resourcePullThroughCacheRuleCreate conn d w =
      { d := (resourcePullThroughCacheRuleRead conn (d.SetId (d.Get "ecr_repository_prefix"))
          (conn.CreatePullThroughCacheRuleWithContext w (createInput d)).2).d
        diags := (resourcePullThroughCacheRuleRead conn (d.SetId (d.Get "ecr_repository_prefix"))
          (conn.CreatePullThroughCacheRuleWithContext w (createInput d)).2).diags
        world := (resourcePullThroughCacheRuleRead conn (d.SetId (d.Get "ecr_repository_prefix"))
          (conn.CreatePullThroughCacheRuleWithContext w (createInput d)).2).world
        calls := Call.CreatePullThroughCacheRule (createInput d) ::
          (resourcePullThroughCacheRuleRead conn (d.SetId (d.Get "ecr_repository_prefix"))
            (conn.CreatePullThroughCacheRuleWithContext w (createInput d)).2).calls } := by
    simp only [resourcePullThroughCacheRuleCreate, hok, List.nil_append]
  rw [hcreate, hcalls]
  exact ⟨rfl, rfl, rfl, rfl, rfl⟩

/-- Witness of C4: creating the planned rule in an empty registry stores the
prefix as identifier and reads the rule back. -/
theorem create_success_is_read_of_set_id_witness :
    (resourcePullThroughCacheRuleCreate storeConn plannedState []).calls =
      [Call.CreatePullThroughCacheRule (createInput plannedState),
       Call.FindPullThroughCacheRuleByRepositoryPrefix "ecr-public"] ∧
    (resourcePullThroughCacheRuleCreate storeConn plannedState []).d.Id = "ecr-public" ∧
    (resourcePullThroughCacheRuleCreate storeConn plannedState []).d.RegistryId
      = some "123456789012" :=
  ⟨(create_success_is_read_of_set_id storeConn plannedState [] rfl).2.2.2.2, by decide, by decide⟩

/-- C5: when the create call returns an error, Create returns exactly one
diagnostic, an error whose summary ends with the text of the provider error,
leaves the resource data (identifier included) as it was, and makes the one
create call and nothing else: no second attempt and no lookup. -/
theorem create_error_is_surfaced {W : Type} (conn : Conn W) (d : ResourceData) (w : W)
    (err : GoError)
    (herr : (conn.CreatePullThroughCacheRuleWithContext w (createInput d)).1 = some err) :
    (resourcePullThroughCacheRuleCreate conn d w).diags =
      [{ severity := Severity.Error
         summary := "creating ECR Pull Through Cache Rule (" ++ d.Get "ecr_repository_prefix"
           ++ "): " ++ err.text
         detail := "" }] ∧
    (resourcePullThroughCacheRuleCreate conn d w).diags.HasError = true ∧
    (∃ x ∈ (resourcePullThroughCacheRuleCreate conn d w).diags,
      x.severity = Severity.Error ∧ ∃ before, x.summary = before ++ err.text) ∧
    (resourcePullThroughCacheRuleCreate conn d w).d = d ∧
    (resourcePullThroughCacheRuleCreate conn d w).d.Id = d.Id ∧
    (resourcePullThroughCacheRuleCreate conn d w).calls =
      [Call.CreatePullThroughCacheRule (createInput d)] := by
  have hcreate : resourcePullThroughCacheRuleCreate conn d w =
      { d := d
        diags := [{ severity := Severity.Error
                    summary := "creating ECR Pull Through Cache Rule (" ++
                      d.Get "ecr_repository_prefix" ++ "): " ++ err.text
                    detail := "" }]
        world := (conn.CreatePullThroughCacheRuleWithContext w (createInput d)).2
        calls := [Call.CreatePullThroughCacheRule (createInput d)] } := by
    simp only [resourcePullThroughCacheRuleCreate, herr, sdkdiag.AppendErrorf, diag.Errorf,
      List.nil_append]
  rw [hcreate]
  refine ⟨rfl, rfl, ?_, rfl, rfl, rfl⟩
  exact ⟨_, List.mem_singleton.mpr rfl, rfl, _, rfl⟩

/-- Witness of C5: a refused create leaves the planned state without
identifier and reports the refusal. -/
theorem create_error_is_surfaced_witness :
    (resourcePullThroughCacheRuleCreate refusingConn plannedState ()).diags =
      [{ severity := Severity.Error
         summary := "creating ECR Pull Through Cache Rule (" ++
           plannedState.Get "ecr_repository_prefix" ++ "): " ++
           "LimitExceededException: too many rules"
         detail := "" }] ∧
    (resourcePullThroughCacheRuleCreate refusingConn plannedState ()).d.Id = "" :=
  ⟨(create_error_is_surfaced refusingConn plannedState ()
      { text := "LimitExceededException: too many rules"
        code := some "LimitExceededException"
        notFound := false } rfl).1,
   (create_error_is_surfaced refusingConn plannedState ()
      { text := "LimitExceededException: too many rules"
        code := some "LimitExceededException"
        notFound := false } rfl).2.2.2.2.1⟩

/-- C6: the validator of `ecr_repository_prefix` accepts the two-byte string
`a!`, although `!` is none of the characters its own message allows: the
pattern has no anchors, so one matching character anywhere is enough. -/
theorem repository_prefix_validator_accepts_other_chars :
    validateRepositoryPrefix "a!" = true ∧
    len "a!" = 2 ∧
    validation.StringMatch repositoryPrefixRegexp "a!" = true ∧
    allowedPrefixChar '!' = false ∧
    "a!".data.all allowedPrefixChar = false ∧
    repositoryPrefixRegexp.anchoredStart = false ∧
    repositoryPrefixRegexp.anchoredEnd = false := by
  decide

/-- C7: every Required or Optional field of the schema is either ForceNew
or is `credential_arn`, whose configured value is carried by the request that
Update builds and sends first; `ecr_repository_prefix` and
`upstream_registry_url` are ForceNew, and `credential_arn` is the only
configurable field that is not. -/
theorem configurable_field_force_new_or_updated :
    (∀ f ∈ ResourcePullThroughCacheRuleSchema, f.Required = true ∨ f.Optional = true →
      f.ForceNew = true ∨
        (f.name = "credential_arn" ∧
          ∀ d : ResourceData, (updateInput d).CredentialArn = some (d.Get f.name))) ∧
    (∀ f ∈ ResourcePullThroughCacheRuleSchema,
      f.name = "ecr_repository_prefix" ∨ f.name = "upstream_registry_url" →
        f.Required = true ∧ f.ForceNew = true) ∧
    (∃ f ∈ ResourcePullThroughCacheRuleSchema,
      f.name = "ecr_repository_prefix" ∧ f.ForceNew = true) ∧
    (∃ f ∈ ResourcePullThroughCacheRuleSchema,
      f.name = "upstream_registry_url" ∧ f.ForceNew = true) ∧
    (∃ f ∈ ResourcePullThroughCacheRuleSchema,
      f.name = "credential_arn" ∧ f.Optional = true ∧ f.ForceNew = false) ∧
    (∀ f ∈ ResourcePullThroughCacheRuleSchema, f.Required = true ∨ f.Optional = true →
      f.ForceNew = false → f.name = "credential_arn") ∧
    (∀ (d : ResourceData) (v : String), d.CredentialArn = some v →
      (updateInput d).CredentialArn = some v) ∧
    (∀ (W : Type) (conn : Conn W) (d : ResourceData) (w : W),
      (resourcePullThroughCacheRuleUpdate conn d w).calls.head? =
        some (Call.UpdatePullThroughCacheRule (updateInput d))) := by
  refine ⟨?_, by decide, by decide, by decide, by decide, by decide, ?_, ?_⟩
  · intro f hf hcfg
    simp only [ResourcePullThroughCacheRuleSchema, List.mem_cons, List.mem_singleton,
      List.mem_nil_iff, or_false] at hf
    rcases hf with rfl | rfl | rfl | rfl
    · exact Or.inl rfl
    · simp at hcfg
    · exact Or.inl rfl
    · exact Or.inr ⟨rfl, fun d => rfl⟩
  · intro d v hv
    simp [updateInput, ResourceData.Get, aws.String, aws.StringValue, hv]
  · intro W conn d w
    simp only [resourcePullThroughCacheRuleUpdate]
    split <;> rfl

/-- C13: when the lookup fails while the resource is marked newly created,
with a not-found error as with any other, Read does not clear the state: it
returns one error diagnostic carrying the error text and leaves the identifier
and the four attributes as they were. -/
theorem read_not_found_new_resource_fails {W : Type} (conn : Conn W) (d : ResourceData) (w : W)
    (err : GoError)
    (hfind : conn.FindPullThroughCacheRuleByRepositoryPrefix w d.Id = Except.error err)
    (hnew : d.IsNewResource = true) :
    (resourcePullThroughCacheRuleRead conn d w).diags =
      [{ severity := Severity.Error
         summary := "reading ECR Pull Through Cache Rule (" ++ d.Id ++ "): " ++ err.text
         detail := "" }] ∧
    (resourcePullThroughCacheRuleRead conn d w).diags.HasError = true ∧
    (resourcePullThroughCacheRuleRead conn d w).d = d ∧
    (resourcePullThroughCacheRuleRead conn d w).d.Id = d.Id ∧
    (resourcePullThroughCacheRuleRead conn d w).d.EcrRepositoryPrefix = d.EcrRepositoryPrefix ∧
    (resourcePullThroughCacheRuleRead conn d w).d.RegistryId = d.RegistryId ∧
    (resourcePullThroughCacheRuleRead conn d w).d.UpstreamRegistryUrl = d.UpstreamRegistryUrl ∧
    (resourcePullThroughCacheRuleRead conn d w).d.CredentialArn = d.CredentialArn := by
  have hread : resourcePullThroughCacheRuleRead conn d w =
      { d := d
        diags := [{ severity := Severity.Error
                    summary := "reading ECR Pull Through Cache Rule (" ++ d.Id ++ "): " ++ err.text
                    detail := "" }]
        world := w
        calls := [Call.FindPullThroughCacheRuleByRepositoryPrefix d.Id] } := by
    unfold resourcePullThroughCacheRuleRead
    simp only [hfind, hnew, Bool.not_true, Bool.false_and, Bool.false_eq_true, if_false,
      sdkdiag.AppendErrorf, diag.Errorf, List.nil_append]
  rw [hread]
  exact ⟨rfl, rfl, rfl, rfl, rfl, rfl, rfl, rfl⟩

/-- Witness of C13: the Read that follows the create of a rule the registry
does not show yet meets a not-found error, fails and keeps the identifier. -/
theorem read_not_found_new_resource_fails_witness :
    tfresource.NotFound (errOf (absentConn.FindPullThroughCacheRuleByRepositoryPrefix ()
      (plannedState.SetId "ecr-public").Id)) = true ∧
    (resourcePullThroughCacheRuleRead absentConn (plannedState.SetId "ecr-public") ()).d.Id
      = "ecr-public" ∧
    (resourcePullThroughCacheRuleRead absentConn (plannedState.SetId "ecr-public")
      ()).diags.HasError = true :=
  ⟨rfl,
   (read_not_found_new_resource_fails absentConn (plannedState.SetId "ecr-public") ()
      { text := "couldn't find resource", code := none, notFound := true } rfl rfl).2.2.2.1,
   (read_not_found_new_resource_fails absentConn (plannedState.SetId "ecr-public") ()
      { text := "couldn't find resource", code := none, notFound := true } rfl rfl).2.1⟩

/-- C14: the request Create builds always carries a CredentialArn: the
configured `credential_arn`, and the empty string, not a missing field, when
none is configured; the same holds for the request Update builds; and these
are the requests the two handlers send first. -/
theorem request_always_carries_credential_arn :
    (∀ d : ResourceData, (createInput d).CredentialArn ≠ none ∧
      (createInput d).CredentialArn = some (d.Get "credential_arn")) ∧
    (∀ (d : ResourceData) (v : String), d.CredentialArn = some v →
      (createInput d).CredentialArn = some v) ∧
    (∀ d : ResourceData, d.CredentialArn = none → (createInput d).CredentialArn = some "") ∧
    (∀ d : ResourceData, (updateInput d).CredentialArn ≠ none ∧
      (updateInput d).CredentialArn = some (d.Get "credential_arn")) ∧
    (∀ (d : ResourceData) (v : String), d.CredentialArn = some v →
      (updateInput d).CredentialArn = some v) ∧
    (∀ d : ResourceData, d.CredentialArn = none → (updateInput d).CredentialArn = some "") ∧
    (∀ (W : Type) (conn : Conn W) (d : ResourceData) (w : W),
      (resourcePullThroughCacheRuleCreate conn d w).calls.head? =
        some (Call.CreatePullThroughCacheRule (createInput d)) ∧
      (resourcePullThroughCacheRuleUpdate conn d w).calls.head? =
        some (Call.UpdatePullThroughCacheRule (updateInput d))) := by
  refine ⟨?_, ?_, ?_, ?_, ?_, ?_, ?_⟩
  · intro d
    exact ⟨by simp [createInput, aws.String], rfl⟩
  · intro d v hv
    simp [createInput, ResourceData.Get, aws.String, aws.StringValue, hv]
  · intro d hv
    simp [createInput, ResourceData.Get, aws.String, aws.StringValue, hv]
  · intro d
    exact ⟨by simp [updateInput, aws.String], rfl⟩
  · intro d v hv
    simp [updateInput, ResourceData.Get, aws.String, aws.StringValue, hv]
  · intro d hv
    simp [updateInput, ResourceData.Get, aws.String, aws.StringValue, hv]
  · intro W conn d w
    constructor
    · simp only [resourcePullThroughCacheRuleCreate]
      split <;> rfl
    · simp only [resourcePullThroughCacheRuleUpdate]
      split <;> rfl

end ecrTheorems

/-! ## Properties of the Route 53 Resolver rules data source -/

section route53Theorems

open route53resolver

/-- One guard of the loop body skips a rule exactly when the documented
filter on that argument fails. -/
theorem guard_eq_not_filterPasses (v : Option String) (test : String → Bool) :
    (v.isSome && aws.StringValue v != "" && !test (aws.StringValue v)) = !filterPasses v test := by
  cases v with
  | none => simp [filterPasses]
  | some s =>
    by_cases hs : s = ""
    · simp [filterPasses, aws.StringValue, hs]
    · simp [filterPasses, aws.StringValue, hs, bne]

/-- The loop body reaches the `append` exactly for the rules the documented
filter selects. -/
theorem reachesAppend_eq_satisfiesFilters (MatchString : String → String → Bool)
    (d : ResourceData) (rule : ResolverRule) :
    reachesAppend MatchString d rule = satisfiesFilters MatchString d rule := by
  have h1 := guard_eq_not_filterPasses d.NameRegex
    (fun s => MatchString s (aws.StringValue rule.Name))
  have h2 := guard_eq_not_filterPasses d.OwnerId (fun s => aws.StringValue rule.OwnerId == s)
  have h3 := guard_eq_not_filterPasses d.ResolverEndpointId
    (fun s => aws.StringValue rule.ResolverEndpointId == s)
  have h4 := guard_eq_not_filterPasses d.RuleType (fun s => aws.StringValue rule.RuleType == s)
  have h5 := guard_eq_not_filterPasses d.ShareStatus
    (fun s => aws.StringValue rule.ShareStatus == s)
  simp only [reachesAppend, satisfiesFilters, ResourceData.GetOk, ResourceData.raw] at *
  simp only [String.reduceEq, if_true, if_false, bne] at *
  rw [h1, h2, h3, h4, h5]
  cases filterPasses d.NameRegex _ <;> cases filterPasses d.OwnerId _ <;>
    cases filterPasses d.ResolverEndpointId _ <;> cases filterPasses d.RuleType _ <;>
    cases filterPasses d.ShareStatus _ <;> rfl

/-- The loop over one page appends the IDs of the page's selected rules, in order. -/
theorem page_loop_eq (keep : ResolverRule → Bool) (rules : List ResolverRule)
    (ids : List (Option String)) :
    rules.foldl (fun ids rule => if keep rule then ids ++ [rule.Id] else ids) ids =
      ids ++ (rules.filter keep).map (fun rule => rule.Id) := by
  induction rules generalizing ids with
  | nil => simp
  | cons rule rest ih =>
    simp only [List.foldl_cons, ih, List.filter_cons]
    by_cases hk : keep rule = true
    · simp [hk]
    · simp [hk]

/-- On a listing that does not fail, the pager runs the callback over every
page: the collected IDs are those of the selected rules of all pages. -/
theorem pager_collects_all (MatchString : String → String → Bool) (d : ResourceData)
    (pages : List ListResolverRulesOutput) (ids : List (Option String)) :
    ListResolverRulesPages false (pageCallback MatchString d) pages ids =
      ids ++ ((allRules pages).filter (reachesAppend MatchString d)).map (fun rule => rule.Id) := by
  induction pages generalizing ids with
  | nil => simp [ListResolverRulesPages, allRules]
  | cons page rest ih =>
    cases rest with
    | nil =>
      simp [ListResolverRulesPages, pageCallback, page_loop_eq, allRules]
    | cons next more =>
      have ih2 := ih (ids ++ (page.ResolverRules.filter (reachesAppend MatchString d)).map
        (fun rule => rule.Id))
      simp only [ListResolverRulesPages, pageCallback, page_loop_eq, List.isEmpty_cons,
        Bool.false_and, Bool.not_false, if_true] at ih2 ⊢
      rw [ih2]
      simp [allRules, List.append_assoc]

/-- C8: when the listing succeeds, `dataSourceRulesRead` returns no
diagnostics and writes as `resolver_rule_ids` the IDs, in listing order, of
exactly the rules of all pages that satisfy every filter that is set; so an ID
is written if and only if some rule on some page carries it and passes the
filters, and with every filter unset or empty the IDs of all rules are written. -/
theorem rules_read_selects_matching (MatchString : String → String → Bool)
    (listing : Listing) (Region : String) (d : ResourceData) (hok : listing.err = none) :
    (dataSourceRulesRead MatchString listing Region d).2 = [] ∧
    (dataSourceRulesRead MatchString listing Region d).1.ResolverRuleIds =
      ((allRules listing.pages).filter (satisfiesFilters MatchString d)).map
        (fun rule => aws.StringValue rule.Id) ∧
    (∀ id, id ∈ (dataSourceRulesRead MatchString listing Region d).1.ResolverRuleIds ↔
      ∃ page ∈ listing.pages, ∃ rule ∈ page.ResolverRules,
        satisfiesFilters MatchString d rule = true ∧ aws.StringValue rule.Id = id) ∧
    ((∀ v ∈ [d.NameRegex, d.OwnerId, d.ResolverEndpointId, d.RuleType, d.ShareStatus],
        v = none ∨ v = some "") →
      (dataSourceRulesRead MatchString listing Region d).1.ResolverRuleIds =
        (allRules listing.pages).map (fun rule => aws.StringValue rule.Id)) := by
  have hids : (dataSourceRulesRead MatchString listing Region d).1.ResolverRuleIds =
      ((allRules listing.pages).filter (satisfiesFilters MatchString d)).map
        (fun rule => aws.StringValue rule.Id) := by
    have hfun : reachesAppend MatchString d = satisfiesFilters MatchString d :=
      funext (reachesAppend_eq_satisfiesFilters MatchString d)
    simp only [dataSourceRulesRead, hok, Option.isSome_none, pager_collects_all,
      StringValueSlice, List.nil_append, List.map_map, hfun]
    rfl
  refine ⟨?_, hids, ?_, ?_⟩
  · simp only [dataSourceRulesRead, hok]
  · intro id
    rw [hids]
    simp only [List.mem_map, List.mem_filter, allRules, List.mem_flatten]
    constructor
    · rintro ⟨rule, ⟨⟨rules, hrules, hmem⟩, hsat⟩, hid⟩
      obtain ⟨page, hpage, rfl⟩ := hrules
      exact ⟨page, hpage, rule, hmem, hsat, hid⟩
    · rintro ⟨page, hpage, rule, hmem, hsat, hid⟩
      exact ⟨rule, ⟨⟨page.ResolverRules, ⟨page, hpage, rfl⟩, hmem⟩, hsat⟩, hid⟩
  · intro hunset
    rw [hids]
    have hall : ∀ rule, satisfiesFilters MatchString d rule = true := by
      intro rule
      have h1 := hunset d.NameRegex (by simp)
      have h2 := hunset d.OwnerId (by simp)
      have h3 := hunset d.ResolverEndpointId (by simp)
      have h4 := hunset d.RuleType (by simp)
      have h5 := hunset d.ShareStatus (by simp)
      unfold satisfiesFilters
      rcases h1 with h1 | h1 <;> rcases h2 with h2 | h2 <;> rcases h3 with h3 | h3 <;>
        rcases h4 with h4 | h4 <;> rcases h5 with h5 | h5 <;>
        simp [h1, h2, h3, h4, h5, filterPasses]
    rw [List.filter_eq_self.mpr (fun rule _ => hall rule)]

/-- Witness of C8: of the three listed rules, the two FORWARD rules named
after `corp`, one on each page, are written. -/
theorem rules_read_selects_matching_witness :
    (dataSourceRulesRead sampleMatch sampleListing "us-east-1" sampleConfig).1.ResolverRuleIds =
      ["rslvr-rr-1", "rslvr-rr-3"] ∧
    (dataSourceRulesRead sampleMatch sampleListing "us-east-1" sampleConfig).2 = [] :=
  ⟨((rules_read_selects_matching sampleMatch sampleListing "us-east-1" sampleConfig rfl).2.1).trans
      (by decide),
   (rules_read_selects_matching sampleMatch sampleListing "us-east-1" sampleConfig rfl).1⟩

end route53Theorems

/-! ## Properties of the EKS cluster adapter -/

section eksTheorems

open eks

/-- After `AddError` the added diagnostic is among the diagnostics. -/
theorem mem_addError (diags : Diagnostics) (summary detail : String) :
    ({ severity := Severity.Error, summary := summary, detail := detail } : Diagnostic) ∈
      fwdiag.AddError diags summary detail := by
  simp only [fwdiag.AddError, fwdiag.Append, List.foldl_cons, List.foldl_nil]
  split
  · assumption
  · simp

/-- After `AddError` the diagnostics have an error. -/
theorem hasError_addError (diags : Diagnostics) (summary detail : String) :
    Diagnostics.HasError (fwdiag.AddError diags summary detail) = true := by
  simp only [Diagnostics.HasError, List.any_eq_true]
  exact ⟨_, mem_addError diags summary detail, by simp⟩

/-- C9, as stated, fails: for a stored cluster the service no longer has, one
whose DeleteCluster call the service answers with not-found, Delete is not a
success: its response carries an error diagnostic and the state is kept. -/
theorem delete_absent_cluster_reports_error :
    (absentClient.DeleteCluster () { Name := some "demo" }).1 = some clusterNotFound ∧
    clusterNotFound.notFound = true ∧
    clusterNotFound.code = some ErrCodeResourceNotFoundException ∧
    (clusterResource.Delete clusterFramework absentClient () { State := storedCluster }
        { State := storedCluster, Diagnostics := [] }).response.Diagnostics.HasError = true ∧
    ((clusterResource.Delete clusterFramework absentClient () { State := storedCluster }
        { State := storedCluster, Diagnostics := [] }).response.Diagnostics.map
          (fun x => x.summary)) = ["Value Conversion Error"] ∧
    (clusterResource.Delete clusterFramework absentClient () { State := storedCluster }
        { State := storedCluster, Diagnostics := [] }).response.State = storedCluster ∧
    (clusterResource.Delete clusterFramework absentClient () { State := storedCluster }
        { State := storedCluster, Diagnostics := [] }).calls = [] := by
  decide

/-- C9, amended: Delete has no not-found case. Whatever the framework reports
on decoding, Delete makes no call or the one DeleteCluster call with the
decoded name; when it makes none its response carries an error diagnostic;
when the call returns an error, a not-found error included, that error is
added as the diagnostic "Error deleting EKS Cluster" with the error text; so a
response free of error diagnostics means the call was made and returned no
error. The state of the response is never changed. -/
theorem delete_clean_only_after_successful_call {W : Type} (fw : Framework) (client : Client W)
    (w : W) (request : DeleteRequest) (response : DeleteResponse) :
    (clusterResource.Delete fw client w request response).response.State = response.State ∧
    ((clusterResource.Delete fw client w request response).calls = [] ∨
      (clusterResource.Delete fw client w request response).calls =
        [Call.DeleteCluster
          { Name := aws.String (ValueString (State.Get fw request.State {}).1.Name) }]) ∧
    ((clusterResource.Delete fw client w request response).calls = [] →
      (clusterResource.Delete fw client w request response).response.Diagnostics.HasError
        = true) ∧
    (∀ err, (clusterResource.Delete fw client w request response).calls ≠ [] →
      (client.DeleteCluster w
        { Name := aws.String (ValueString (State.Get fw request.State {}).1.Name) }).1
          = some err →
      ({ severity := Severity.Error, summary := "Error deleting EKS Cluster", detail := err.text }
        : Diagnostic) ∈ (clusterResource.Delete fw client w request response).response.Diagnostics ∧
      (clusterResource.Delete fw client w request response).response.Diagnostics.HasError
        = true) ∧
    ((clusterResource.Delete fw client w request response).response.Diagnostics.HasError = false →
      (clusterResource.Delete fw client w request response).calls =
        [Call.DeleteCluster
          { Name := aws.String (ValueString (State.Get fw request.State {}).1.Name) }] ∧
      (client.DeleteCluster w
        { Name := aws.String (ValueString (State.Get fw request.State {}).1.Name) }).1
          = none) := by
  cases h1 : Diagnostics.HasError
      (fwdiag.Append response.Diagnostics (State.Get fw request.State {}).2) with
  | true =>
    have hout : clusterResource.Delete fw client w request response =
        { response :=
            { State := response.State
              Diagnostics := fwdiag.Append response.Diagnostics (State.Get fw request.State {}).2 }
          world := w
          calls := [] } := by
      simp only [clusterResource.Delete, h1, if_true]
    rw [hout]
    refine ⟨rfl, Or.inl rfl, fun _ => h1, fun err hne => absurd rfl hne, fun hclean => ?_⟩
    simp only [h1] at hclean
    exact absurd hclean (by decide)
  | false =>
    cases hres : (client.DeleteCluster w
        { Name := aws.String (ValueString (State.Get fw request.State {}).1.Name) }).1 with
    | none =>
      have hout : clusterResource.Delete fw client w request response =
          { response :=
              { State := response.State
                Diagnostics :=
                  fwdiag.Append response.Diagnostics (State.Get fw request.State {}).2 }
            world := (client.DeleteCluster w
              { Name := aws.String (ValueString (State.Get fw request.State {}).1.Name) }).2
            calls := [Call.DeleteCluster
              { Name := aws.String (ValueString (State.Get fw request.State {}).1.Name) }] } := by
        simp only [clusterResource.Delete, h1, hres, Bool.false_eq_true, if_false]
      rw [hout]
      refine ⟨rfl, Or.inr rfl, fun hnil => ?_, fun err _ herr => ?_, fun _ => ⟨rfl, rfl⟩⟩
      · exact absurd hnil (by simp)
      · exact absurd herr (by simp)
    | some e =>
      have hout : clusterResource.Delete fw client w request response =
          { response :=
              { State := response.State
                Diagnostics := fwdiag.AddError
                  (fwdiag.Append response.Diagnostics (State.Get fw request.State {}).2)
                  "Error deleting EKS Cluster" e.text }
            world := (client.DeleteCluster w
              { Name := aws.String (ValueString (State.Get fw request.State {}).1.Name) }).2
            calls := [Call.DeleteCluster
              { Name := aws.String (ValueString (State.Get fw request.State {}).1.Name) }] } := by
        simp only [clusterResource.Delete, h1, hres, Bool.false_eq_true, if_false]
      rw [hout]
      refine ⟨rfl, Or.inr rfl, fun hnil => ?_, fun err _ herr => ?_, fun hclean => ?_⟩
      · exact absurd hnil (by simp)
      · cases herr
        exact ⟨mem_addError _ _ _, hasError_addError _ _ _⟩
      · rw [hasError_addError] at hclean
        exact absurd hclean (by decide)

/-- C10, as stated, fails: for a stored cluster the service no longer has, one
whose DescribeCluster call the service answers with not-found, Read does not
remove the resource from the state and its response carries an error
diagnostic. -/
theorem read_absent_cluster_reports_error :
    (absentClient.DescribeCluster () { Name := some "demo" }).1 = Except.error clusterNotFound ∧
    clusterNotFound.notFound = true ∧
    (clusterResource.Read clusterFramework absentClient () { State := storedCluster }
        { State := storedCluster, Diagnostics := [] }).response.State = storedCluster ∧
    (clusterResource.Read clusterFramework absentClient () { State := storedCluster }
        { State := storedCluster, Diagnostics := [] }).response.State
      ≠ State.RemoveResource storedCluster ∧
    (clusterResource.Read clusterFramework absentClient () { State := storedCluster }
        { State := storedCluster, Diagnostics := [] }).response.Diagnostics.HasError = true ∧
    ((clusterResource.Read clusterFramework absentClient () { State := storedCluster }
        { State := storedCluster, Diagnostics := [] }).response.Diagnostics.map
          (fun x => x.summary)) = ["Value Conversion Error"] ∧
    (clusterResource.Read clusterFramework absentClient () { State := storedCluster }
        { State := storedCluster, Diagnostics := [] }).calls = [] := by
  refine ⟨rfl, ?_⟩
  decide

/-- C10, amended: Read has no not-found case and never removes the resource.
Whatever the framework reports on decoding, a state that holds a record before
Read holds one after it; Read makes no call or the one DescribeCluster call
with the decoded name; when it makes none, or when the call returns an error,
a not-found error included, the state is left as it was and the response
carries an error diagnostic, for a failed call the diagnostic "Error reading
EKS Cluster" with the error text; so a response free of error diagnostics
means the call was made and succeeded. -/
theorem read_never_removes_resource {W : Type} (fw : Framework) (client : Client W) (w : W)
    (request : ReadRequest) (response : ReadResponse) :
    (∀ m, response.State.Raw = some m →
      ∃ m1, (clusterResource.Read fw client w request response).response.State.Raw = some m1) ∧
    ((clusterResource.Read fw client w request response).calls = [] ∨
      (clusterResource.Read fw client w request response).calls =
        [Call.DescribeCluster
          { Name := aws.String (ValueString (State.Get fw request.State {}).1.Name) }]) ∧
    ((clusterResource.Read fw client w request response).calls = [] →
      (clusterResource.Read fw client w request response).response.State = response.State ∧
      (clusterResource.Read fw client w request response).response.Diagnostics.HasError
        = true) ∧
    (∀ err, (clusterResource.Read fw client w request response).calls ≠ [] →
      (client.DescribeCluster w
        { Name := aws.String (ValueString (State.Get fw request.State {}).1.Name) }).1
          = Except.error err →
      (clusterResource.Read fw client w request response).response.State = response.State ∧
      ({ severity := Severity.Error, summary := "Error reading EKS Cluster", detail := err.text }
        : Diagnostic) ∈ (clusterResource.Read fw client w request response).response.Diagnostics ∧
      (clusterResource.Read fw client w request response).response.Diagnostics.HasError
        = true) ∧
    ((clusterResource.Read fw client w request response).response.Diagnostics.HasError = false →
      (clusterResource.Read fw client w request response).calls =
        [Call.DescribeCluster
          { Name := aws.String (ValueString (State.Get fw request.State {}).1.Name) }] ∧
      ∃ output, (client.DescribeCluster w
        { Name := aws.String (ValueString (State.Get fw request.State {}).1.Name) }).1
          = Except.ok output) := by
  cases h1 : Diagnostics.HasError
      (fwdiag.Append response.Diagnostics (State.Get fw request.State {}).2) with
  | true =>
    have hout : clusterResource.Read fw client w request response =
        { response :=
            { State := response.State
              Diagnostics := fwdiag.Append response.Diagnostics (State.Get fw request.State {}).2 }
          world := w
          calls := [] } := by
      simp only [clusterResource.Read, h1, if_true]
    rw [hout]
    refine ⟨fun m hm => ⟨m, hm⟩, Or.inl rfl, fun _ => ⟨rfl, h1⟩, fun err hne => absurd rfl hne,
      fun hclean => ?_⟩
    simp only [h1] at hclean
    exact absurd hclean (by decide)
  | false =>
    cases hres : (client.DescribeCluster w
        { Name := aws.String (ValueString (State.Get fw request.State {}).1.Name) }).1 with
    | error e =>
      have hout : clusterResource.Read fw client w request response =
          { response :=
              { State := response.State
                Diagnostics := fwdiag.AddError
                  (fwdiag.Append response.Diagnostics (State.Get fw request.State {}).2)
                  "Error reading EKS Cluster" e.text }
            world := (client.DescribeCluster w
              { Name := aws.String (ValueString (State.Get fw request.State {}).1.Name) }).2
            calls := [Call.DescribeCluster
              { Name := aws.String (ValueString (State.Get fw request.State {}).1.Name) }] } := by
        simp only [clusterResource.Read, h1, hres, Bool.false_eq_true, if_false]
      rw [hout]
      refine ⟨fun m hm => ⟨m, hm⟩, Or.inr rfl, fun hnil => ?_, fun err _ herr => ?_,
        fun hclean => ?_⟩
      · exact absurd hnil (by simp)
      · cases herr
        exact ⟨rfl, mem_addError _ _ _, hasError_addError _ _ _⟩
      · rw [hasError_addError] at hclean
        exact absurd hclean (by decide)
    | ok output =>
      have hcalls : (clusterResource.Read fw client w request response).calls =
          [Call.DescribeCluster
            { Name := aws.String (ValueString (State.Get fw request.State {}).1.Name) }] := by
        simp only [clusterResource.Read, h1, hres, Bool.false_eq_true, if_false]
        split <;> rfl
      have hstate : ∀ m, response.State.Raw = some m →
          ∃ m1, (clusterResource.Read fw client w request response).response.State.Raw
            = some m1 := by
        intro m hm
        simp only [clusterResource.Read, h1, hres, Bool.false_eq_true, if_false]
        split
        · exact ⟨m, hm⟩
        · simp only [State.Set]
          split
          · exact ⟨m, hm⟩
          · exact ⟨_, rfl⟩
      refine ⟨hstate, Or.inr hcalls, fun hnil => ?_, fun err _ herr => ?_,
        fun _ => ⟨hcalls, output, rfl⟩⟩
      · rw [hcalls] at hnil
        exact absurd hnil (by simp)
      · exact absurd herr (by simp)

/-- C11: Create stores no identifier returned by the provider. For a valid
plan of a cluster `demo` and a service that would create it, decoding the plan
into `clusterResourceModel`, which has no field for the `id` of the schema,
reports an error: Create makes no call, stores no state and assigns no
identifier. And whatever the framework reports, the only identifier Create
ever assigns is the literal `TODO`, never a value of the create response. -/
theorem create_stores_no_provider_identifier :
    (clusterResource.Create clusterFramework plainFlex creatingClient []
        { Plan := plannedCluster "demo" } emptyCreateResponse).calls = [] ∧
    (clusterResource.Create clusterFramework plainFlex creatingClient []
        { Plan := plannedCluster "demo" } emptyCreateResponse).world = [] ∧
    (clusterResource.Create clusterFramework plainFlex creatingClient []
        { Plan := plannedCluster "demo" } emptyCreateResponse).response.State = { Raw := none } ∧
    (clusterResource.Create clusterFramework plainFlex creatingClient []
        { Plan := plannedCluster "demo" } emptyCreateResponse).response.Diagnostics.HasError
      = true ∧
    (clusterResource.Create clusterFramework plainFlex creatingClient []
        { Plan := plannedCluster "demo" } emptyCreateResponse).identifier = none ∧
    names.AttrID ∈ schemaNames ∧ names.AttrID ∉ modelTfsdkNames ∧
    (∀ (W : Type) (fw : Framework) (flex : Flex) (client : Client W) (w : W)
        (request : CreateRequest) (response : CreateResponse),
      (clusterResource.Create fw flex client w request response).identifier = none ∨
      (clusterResource.Create fw flex client w request response).identifier = some "TODO") := by
  refine ⟨by decide, by decide, by decide, by decide, by decide, by decide, by decide, ?_⟩
  intro W fw flex client w request response
  simp only [clusterResource.Create]
  split
  · exact Or.inl rfl
  · split
    · exact Or.inl rfl
    · split
      · exact Or.inl rfl
      · exact Or.inr rfl

/-- The language of a character class: the one-character strings over its members. -/
theorem mem_matches_charClass (l : List Char) (x : List Char) :
    x ∈ (charClass l).matches' ↔ ∃ c ∈ l, x = [c] := by
  induction l with
  | nil =>
    simp only [charClass, List.foldr_nil, RegularExpression.matches', List.not_mem_nil,
      false_and, exists_false, iff_false]
    exact Language.not_mem_zero x
  | cons c l ih =>
    have hstep : charClass (c :: l) =
        RegularExpression.plus (RegularExpression.char c) (charClass l) := rfl
    rw [hstep]
    simp only [RegularExpression.matches', Language.mem_add, ih, List.mem_cons]
    constructor
    · rintro (h | ⟨d, hd, rfl⟩)
      · exact ⟨c, Or.inl rfl, h⟩
      · exact ⟨d, Or.inr hd, rfl⟩
    · rintro ⟨d, rfl | hd, rfl⟩
      · exact Or.inl rfl
      · exact Or.inr ⟨d, hd, rfl⟩

/-- Under `^` and `$` a match of the pattern is a match of the whole text. -/
theorem anchored_match_is_full (re : Regexp) (hs : re.anchoredStart = true)
    (he : re.anchoredEnd = true) (v : String) (h : re.MatchString v = true) :
    re.body.rmatch v.data = true := by
  simp only [Regexp.MatchString, hs, he, List.any_eq_true, List.mem_range, Bool.not_true,
    Bool.false_or, Bool.and_eq_true, beq_iff_eq] at h
  obtain ⟨i, _, n, _, ⟨hi, hn⟩, hm⟩ := h
  subst hi
  simp only [Nat.zero_add] at hn
  rw [hn, List.drop_zero, List.take_length] at hm
  exact hm

/-- What the validators of the cluster `name` do guarantee: a length of 1 to
100 bytes, an alphanumeric first character, and after it only alphanumeric
characters, underscores or hyphens. -/
theorem validateName_sound (v : String) (h : validateName v = true) :
    1 ≤ len v ∧ len v ≤ 100 ∧
    ∃ c rest, v.data = c :: rest ∧ c.isAlphanum = true ∧
      ∀ x ∈ rest, x.isAlphanum = true ∨ x = '_' ∨ x = '-' := by
  simp only [validateName, stringvalidator.RegexMatches, stringvalidator.LengthBetween,
    List.all_cons, List.all_nil, Bool.and_true, Bool.and_eq_true, Bool.not_eq_true',
    Bool.or_eq_false_iff, decide_eq_false_iff_not, Nat.not_lt] at h
  obtain ⟨hm, hmin, hmax⟩ := h
  refine ⟨hmin, by omega, ?_⟩
  have hfull := anchored_match_is_full nameRegexp rfl rfl v hm
  rw [RegularExpression.rmatch_iff_matches'] at hfull
  change v.data ∈ (charClass alnumChars).matches' *
    KStar.kstar (charClass (alnumChars ++ ['_', '-'])).matches' at hfull
  rw [Language.mem_mul] at hfull
  obtain ⟨a, ha, b, hb, hab⟩ := hfull
  rw [mem_matches_charClass] at ha
  rw [Language.mem_kstar] at hb
  obtain ⟨c, hc, rfl⟩ := ha
  obtain ⟨L, rfl, hL⟩ := hb
  have halnum : ∀ x ∈ alnumChars, x.isAlphanum = true := by
    have hall : alnumChars.all Char.isAlphanum = true := by decide
    exact List.all_eq_true.mp hall
  refine ⟨c, L.flatten, hab.symm, halnum c hc, ?_⟩
  intro x hx
  obtain ⟨y, hy, hxy⟩ := List.mem_flatten.mp hx
  obtain ⟨e, he, rfl⟩ := (mem_matches_charClass _ _).mp (hL y hy)
  rw [List.mem_singleton] at hxy
  subst hxy
  rcases List.mem_append.mp he with h1 | h2
  · exact Or.inl (halnum x h1)
  · simp only [List.mem_cons, List.mem_singleton, List.mem_nil_iff, or_false] at h2
    exact Or.inr h2

/-- C12: the validators of the cluster `name` accept the two-byte string
`a_`, although `_` is neither alphanumeric nor a hyphen: the class of the
pattern lists `_`, which the validator message does not. -/
theorem name_validator_accepts_underscore :
    validateName "a_" = true ∧
    len "a_" = 2 ∧
    stringvalidator.RegexMatches nameRegexp "a_" = true ∧
    allowedNameChar '_' = false ∧
    "a_".data.all allowedNameChar = false := by
  decide

/-- C15: the schema declares the top-level name `id`, for which
`clusterResourceModel` has no `tfsdk` field: it is the one name of the schema
the record lacks, while every name of the record, `timeouts` included, is
declared by the schema. -/
theorem schema_id_has_no_model_field :
    names.AttrID ∈ schemaNames ∧
    names.AttrID ∉ modelTfsdkNames ∧
    objectFieldsMissingInStruct schemaNames modelTfsdkNames = ["id"] ∧
    structFieldsMissingInObject schemaNames modelTfsdkNames = [] ∧
    "timeouts" ∈ schemaNames ∧ "timeouts" ∈ modelTfsdkNames ∧
    schemaNames.length = 23 ∧ modelTfsdkNames.length = 22 ∧
    schemaNames.Nodup ∧ modelTfsdkNames.Nodup := by
  decide

/-- C16: the conflicts declared between the blocks of the schema are
symmetric: whenever block `a` declares ConflictsWith `b`, block `b` declares
ConflictsWith `a`; the declared pairs are `outpost_config` with
`encryption_config` and with `kubernetes_network_config`, in both directions;
and a configuration that sets `outpost_config` together with one of the other
two fails the validators of `outpost_config` and those of the other block. -/
theorem conflicts_are_symmetric :
    (∀ a b : String, declaresConflict a b = true → declaresConflict b a = true) ∧
    declaresConflict "outpost_config" "encryption_config" = true ∧
    declaresConflict "encryption_config" "outpost_config" = true ∧
    declaresConflict "outpost_config" "kubernetes_network_config" = true ∧
    declaresConflict "kubernetes_network_config" "outpost_config" = true ∧
    (∀ a b : String, declaresConflict a b = true →
      (a = "outpost_config" ∧ (b = "encryption_config" ∨ b = "kubernetes_network_config")) ∨
      (b = "outpost_config" ∧ (a = "encryption_config" ∨ a = "kubernetes_network_config"))) ∧
    (∀ (configured : List String) (other : SchemaBlock),
      other ∈ schemaBlocks →
      other.name = "encryption_config" ∨ other.name = "kubernetes_network_config" →
      "outpost_config" ∈ configured → other.name ∈ configured →
      blockValidationFails configured other = true ∧
      ∀ blk ∈ schemaBlocks, blk.name = "outpost_config" →
        blockValidationFails configured blk = true) := by
  have hpairs : ∀ a b : String, declaresConflict a b = true →
      (a = "outpost_config" ∧ (b = "encryption_config" ∨ b = "kubernetes_network_config")) ∨
      (b = "outpost_config" ∧ (a = "encryption_config" ∨ a = "kubernetes_network_config")) := by
    intro a b h
    simp [declaresConflict, schemaBlocks, names.AttrVPCConfig] at h
    rcases h with ⟨rfl, rfl⟩ | ⟨rfl, rfl⟩ | ⟨rfl, rfl | rfl⟩ <;> simp
  refine ⟨?_, by decide, by decide, by decide, by decide, hpairs, ?_⟩
  · intro a b h
    rcases hpairs a b h with ⟨rfl, rfl | rfl⟩ | ⟨rfl, rfl | rfl⟩ <;> decide
  · intro configured other hother hname hout hmem
    simp only [schemaBlocks, names.AttrVPCConfig, List.mem_cons, List.mem_singleton,
      List.mem_nil_iff, or_false] at hother
    constructor
    · rcases hother with rfl | rfl | rfl | rfl | rfl | rfl | rfl | rfl | rfl <;>
        simp_all [blockValidationFails]
    · intro blk hblk hb
      have hsome : "encryption_config" ∈ configured ∨
          "kubernetes_network_config" ∈ configured := by
        rcases hname with h | h
        · exact Or.inl (h ▸ hmem)
        · exact Or.inr (h ▸ hmem)
      clear hother hname hmem
      simp only [schemaBlocks, names.AttrVPCConfig, List.mem_cons, List.mem_singleton,
        List.mem_nil_iff, or_false] at hblk
      rcases hblk with rfl | rfl | rfl | rfl | rfl | rfl | rfl | rfl | rfl <;>
        simp_all [blockValidationFails]

end eksTheorems

end TerraformAWS
